import Mathlib

/-!
Verification development for the k3air installer.

The definitions below are a shallow embedding of the Go sources:
* `internal/config` — cluster declaration, nodes, CIDR validation;
* `internal/install` — the orchestrator (`Apply`, `installServer`,
  `installAgent`, `prepareNode`, `uploadAssets`, `downloadKubeconfig`),
  the service-unit generator (`serverServiceContent`,
  `agentServiceContent`, `unitService`), the kubeconfig patcher
  (`replaceKubeconfigServer`) and the asset resolver (`ResolveAsset`).

Remote effects (SSH command execution, file transfer, HTTP download,
local file writes) are abstracted as an explicit environment of pure
oracles, and every performed effect is recorded in an explicit trace, so
that control flow (sequencing, early abort on error, warning
downgrades) is preserved exactly while staying executable.
-/

/-! ## Configuration data model (internal/config/config.go) -/

structure Cluster where
  flannelBackend : String
  clusterCidr : String
  serviceCidr : String
  token : String
  tlsSan : List String
  disable : List String
  dataDir : String
  embeddedRegistry : Bool
  registries : String
deriving DecidableEq

structure Node where
  nodeName : String
  ip : String
  port : Nat
  user : String
  password : String
  keyPath : String
  labels : List String
deriving DecidableEq

structure AssetSource where
  k3sBinary : String
  k3sAirgapTarball : String
deriving DecidableEq

structure Config where
  cluster : Cluster
  assets : AssetSource
  servers : List Node
  agents : List Node
deriving DecidableEq

/-- The `Installer` struct (install.go); the `assetManager` handle is
abstracted by the effect environment, the remaining fields are kept. -/
structure Installer where
  cfg : Config
  assetsDir : String
  templateAssetsDir : String
  verbose : Bool
deriving DecidableEq

/-! ## Service-unit generation (install.go: unitService, serverServiceContent,
agentServiceContent) -/

/-- `unitService` builds the systemd unit text, byte for byte as the Go
`strings.Builder` sequence does. -/
def unitService (name exec : String) : String :=
  "[Unit]\n" ++
  "Description=" ++ name ++ "\n" ++
  "After=network.target\n" ++
  "[Service]\n" ++
  "Type=notify\n" ++
  "ExecStart=" ++ exec ++ "\n" ++
  "Restart=always\n" ++
  "LimitNOFILE=1048576\n" ++
  "[Install]\n" ++
  "WantedBy=multi-user.target\n"

/-- `fmt.Sprintf("https://%s:6443", primaryIP)` as used for join targets. -/
def joinTargetURL (primaryIP : String) : String :=
  "https://" ++ primaryIP ++ ":6443"

/-- Argument assembly of `serverServiceContent` (install.go lines 299-340),
one `let` per Go `if`/`for` append. -/
def serverArgs (cluster : Cluster) (node : Node) (primaryIP : String)
    (isPrimary : Bool) : List String :=
  let args : List String :=
    if isPrimary then ["server", "--cluster-init"]
    else ["server", "--server", joinTargetURL primaryIP]
  let args := if cluster.flannelBackend ≠ "" then
    args ++ ["--flannel-backend", cluster.flannelBackend] else args
  let args := if cluster.clusterCidr ≠ "" then
    args ++ ["--cluster-cidr", cluster.clusterCidr] else args
  let args := if cluster.serviceCidr ≠ "" then
    args ++ ["--service-cidr", cluster.serviceCidr] else args
  let args := if cluster.dataDir ≠ "" then
    args ++ ["--data-dir", cluster.dataDir] else args
  let args := if node.nodeName ≠ "" then
    args ++ ["--node-name", node.nodeName] else args
  let args := if cluster.embeddedRegistry then
    args ++ ["--embedded-registry"] else args
  let args := cluster.tlsSan.foldl
    (fun a s => if s ≠ "" then a ++ ["--tls-san", s] else a) args
  let args := cluster.disable.foldl
    (fun a d => if d ≠ "" then a ++ ["--disable", d] else a) args
  let args := node.labels.foldl
    (fun a l => if l ≠ "" then a ++ ["--node-label", l] else a) args
  args

/-- The full `ExecStart` command of a server unit: the joined argument list
followed by the unconditional `" --token " + cluster.Token` suffix. -/
def serverCmd (cluster : Cluster) (node : Node) (primaryIP : String)
    (isPrimary : Bool) : String :=
  "/usr/local/bin/k3s " ++
    String.intercalate " " (serverArgs cluster node primaryIP isPrimary) ++
    " --token " ++ cluster.token

/-- `serverServiceContent` (install.go). -/
def serverServiceContent (i : Installer) (node : Node) (primaryIP : String)
    (isPrimary : Bool) : String :=
  unitService "k3s" (serverCmd i.cfg.cluster node primaryIP isPrimary)

/-- Argument assembly of `agentServiceContent` (install.go lines 344-360);
here the token pair is part of the argument list. -/
def agentArgs (cluster : Cluster) (node : Node) (primaryIP : String) :
    List String :=
  let args : List String := ["agent", "--server", joinTargetURL primaryIP]
  let args := if cluster.dataDir ≠ "" then
    args ++ ["--data-dir", cluster.dataDir] else args
  let args := if node.nodeName ≠ "" then
    args ++ ["--node-name", node.nodeName] else args
  let args := node.labels.foldl
    (fun a l => if l ≠ "" then a ++ ["--node-label", l] else a) args
  args ++ ["--token", cluster.token]

/-- `agentServiceContent` (install.go). -/
def agentServiceContent (i : Installer) (node : Node) (primaryIP : String) :
    String :=
  unitService "k3s-agent"
    ("/usr/local/bin/k3s " ++
      String.intercalate " " (agentArgs i.cfg.cluster node primaryIP))

/-! ## Claim-side flag grouping

`optFlag`, `eachFlag`, `roleFlags` and `embFlag` express the spec's
"conceptual grouping" of flags; the decomposition lemmas below relate the
source's sequential conditional appends to these groups. -/

def optFlag (flag v : String) : List String :=
  if v = "" then [] else [flag, v]

def eachFlag (flag : String) (vs : List String) : List String :=
  vs.flatMap (fun s => if s = "" then [] else [flag, s])

def roleFlags (primaryIP : String) (isPrimary : Bool) : List String :=
  if isPrimary then ["server", "--cluster-init"]
  else ["server", "--server", joinTargetURL primaryIP]

def embFlag (b : Bool) : List String :=
  if b then ["--embedded-registry"] else []

theorem foldl_eachFlag (flag : String) (l : List String)
    (init : List String) :
    l.foldl (fun a s => if s ≠ "" then a ++ [flag, s] else a) init =
      init ++ eachFlag flag l := by
  induction l generalizing init with
  | nil => simp [eachFlag]
  | cons x xs ih =>
    rw [List.foldl_cons, ih]
    by_cases hx : x = ""
    · simp [hx, eachFlag]
    · simp [eachFlag, hx, List.append_assoc]

theorem if_append_optFlag (X : List String) (f v : String) :
    (if v ≠ "" then X ++ [f, v] else X) = X ++ optFlag f v := by
  by_cases h : v = "" <;> simp [h, optFlag]

/-- Decomposition of the server argument list into the spec's fixed groups. -/
theorem serverArgs_decomp (c : Cluster) (n : Node) (ip : String) (b : Bool) :
    serverArgs c n ip b =
      roleFlags ip b ++
      optFlag "--flannel-backend" c.flannelBackend ++
      optFlag "--cluster-cidr" c.clusterCidr ++
      optFlag "--service-cidr" c.serviceCidr ++
      optFlag "--data-dir" c.dataDir ++
      optFlag "--node-name" n.nodeName ++
      embFlag c.embeddedRegistry ++
      eachFlag "--tls-san" c.tlsSan ++
      eachFlag "--disable" c.disable ++
      eachFlag "--node-label" n.labels := by
  show (List.foldl _ (List.foldl _ (List.foldl _ _ _) _) _) = _
  rw [foldl_eachFlag, foldl_eachFlag, foldl_eachFlag]
  simp only [if_append_optFlag]
  unfold roleFlags embFlag
  by_cases hb : c.embeddedRegistry <;> simp [hb, List.append_assoc]

/-- Decomposition of the agent argument list into the spec's fixed groups. -/
theorem agentArgs_decomp (c : Cluster) (n : Node) (ip : String) :
    agentArgs c n ip =
      ["agent", "--server", joinTargetURL ip] ++
      optFlag "--data-dir" c.dataDir ++
      optFlag "--node-name" n.nodeName ++
      eachFlag "--node-label" n.labels ++
      ["--token", c.token] := by
  show (List.foldl _ _ _) ++ ["--token", c.token] = _
  rw [foldl_eachFlag]
  simp only [if_append_optFlag]

/-! ## Helper lemmas about argument-list membership -/

theorem joinTargetURL_ne_empty (ip : String) : joinTargetURL ip ≠ "" := by
  intro h
  have := congrArg String.data h
  simp [joinTargetURL, String.data_append] at this

theorem joinTargetURL_ne_server_flag (ip : String) :
    joinTargetURL ip ≠ "--server" := by
  intro h
  have := congrArg String.data h
  simp [joinTargetURL, String.data_append] at this

theorem joinTargetURL_ne_cluster_init (ip : String) :
    joinTargetURL ip ≠ "--cluster-init" := by
  intro h
  have := congrArg String.data h
  simp [joinTargetURL, String.data_append] at this

theorem mem_optFlag {x f v : String} (h : x ∈ optFlag f v) :
    x = f ∨ (x = v ∧ v ≠ "") := by
  unfold optFlag at h
  by_cases hv : v = "" <;> simp [hv] at h
  tauto

theorem mem_eachFlag {x f : String} {vs : List String}
    (h : x ∈ eachFlag f vs) : x = f ∨ (x ∈ vs ∧ x ≠ "") := by
  unfold eachFlag at h
  simp only [List.mem_flatMap] at h
  obtain ⟨s, hs, hx⟩ := h
  by_cases he : s = "" <;> simp [he] at hx
  rcases hx with hx | hx
  · exact Or.inl hx
  · exact Or.inr ⟨hx ▸ hs, hx ▸ he⟩

/-- All configuration-supplied strings that can appear as flag values in a
generated unit. -/
def cfgStrings (c : Cluster) (n : Node) : List String :=
  [c.flannelBackend, c.clusterCidr, c.serviceCidr, c.dataDir, c.token,
    n.nodeName] ++ c.tlsSan ++ c.disable ++ n.labels

/-- The fixed flag-name tokens the server generator can emit. -/
def serverFlagNames : List String :=
  ["--flannel-backend", "--cluster-cidr", "--service-cidr", "--data-dir",
    "--node-name", "--embedded-registry", "--tls-san", "--disable",
    "--node-label"]

theorem mem_serverArgs {x : String} {c : Cluster} {n : Node} {ip : String}
    {b : Bool} (h : x ∈ serverArgs c n ip b) :
    x ∈ roleFlags ip b ∨ x ∈ serverFlagNames ∨
      (x ∈ cfgStrings c n ∧ x ≠ "") := by
  rw [serverArgs_decomp] at h
  simp only [List.mem_append] at h
  rcases h with ((((((((h | h) | h) | h) | h) | h) | h) | h) | h) | h
  · exact Or.inl h
  · rcases mem_optFlag h with h | ⟨h1, h2⟩
    · exact Or.inr (Or.inl (by simp [serverFlagNames, h]))
    · exact Or.inr (Or.inr ⟨by simp [cfgStrings, h1], h1 ▸ h2⟩)
  · rcases mem_optFlag h with h | ⟨h1, h2⟩
    · exact Or.inr (Or.inl (by simp [serverFlagNames, h]))
    · exact Or.inr (Or.inr ⟨by simp [cfgStrings, h1], h1 ▸ h2⟩)
  · rcases mem_optFlag h with h | ⟨h1, h2⟩
    · exact Or.inr (Or.inl (by simp [serverFlagNames, h]))
    · exact Or.inr (Or.inr ⟨by simp [cfgStrings, h1], h1 ▸ h2⟩)
  · rcases mem_optFlag h with h | ⟨h1, h2⟩
    · exact Or.inr (Or.inl (by simp [serverFlagNames, h]))
    · exact Or.inr (Or.inr ⟨by simp [cfgStrings, h1], h1 ▸ h2⟩)
  · rcases mem_optFlag h with h | ⟨h1, h2⟩
    · exact Or.inr (Or.inl (by simp [serverFlagNames, h]))
    · exact Or.inr (Or.inr ⟨by simp [cfgStrings, h1], h1 ▸ h2⟩)
  · unfold embFlag at h
    by_cases hb : c.embeddedRegistry <;> simp [hb] at h
    exact Or.inr (Or.inl (by simp [serverFlagNames, h]))
  · rcases mem_eachFlag h with h | ⟨h1, h2⟩
    · exact Or.inr (Or.inl (by simp [serverFlagNames, h]))
    · exact Or.inr (Or.inr ⟨by simp [cfgStrings, h1], h2⟩)
  · rcases mem_eachFlag h with h | ⟨h1, h2⟩
    · exact Or.inr (Or.inl (by simp [serverFlagNames, h]))
    · exact Or.inr (Or.inr ⟨by simp [cfgStrings, h1], h2⟩)
  · rcases mem_eachFlag h with h | ⟨h1, h2⟩
    · exact Or.inr (Or.inl (by simp [serverFlagNames, h]))
    · exact Or.inr (Or.inr ⟨by simp [cfgStrings, h1], h2⟩)

theorem mem_agentArgs {x : String} {c : Cluster} {n : Node} {ip : String}
    (h : x ∈ agentArgs c n ip) :
    x ∈ ["agent", "--server", joinTargetURL ip] ∨
      x ∈ (["--data-dir", "--node-name", "--node-label", "--token"] :
        List String) ∨
      (x ∈ cfgStrings c n ∧ x ≠ "") ∨ x = c.token := by
  rw [agentArgs_decomp] at h
  simp only [List.mem_append] at h
  rcases h with (((h | h) | h) | h) | h
  · exact Or.inl h
  · rcases mem_optFlag h with h | ⟨h1, h2⟩
    · exact Or.inr (Or.inl (by simp [h]))
    · exact Or.inr (Or.inr (Or.inl ⟨by simp [cfgStrings, h1], h1 ▸ h2⟩))
  · rcases mem_optFlag h with h | ⟨h1, h2⟩
    · exact Or.inr (Or.inl (by simp [h]))
    · exact Or.inr (Or.inr (Or.inl ⟨by simp [cfgStrings, h1], h1 ▸ h2⟩))
  · rcases mem_eachFlag h with h | ⟨h1, h2⟩
    · exact Or.inr (Or.inl (by simp [h]))
    · exact Or.inr (Or.inr (Or.inl ⟨by simp [cfgStrings, h1], h2⟩))
  · simp only [List.mem_cons, List.mem_singleton] at h
    rcases h with h | h
    · exact Or.inr (Or.inl (by simp [h]))
    · simp at h
      exact Or.inr (Or.inr (Or.inr h))

/-! ## Concrete fixtures used by witnesses and counterexamples -/

def clusterW : Cluster :=
  ⟨"vxlan", "10.42.0.0/16", "10.43.0.0/16", "tok", [], ["traefik"],
    "/var/lib/rancher/k3s", true, ""⟩

def nodeW : Node := ⟨"s1", "10.0.0.1", 22, "root", "pw", "", ["disk=ssd"]⟩

/-- A cluster whose join token is left empty. -/
def clusterNoTok : Cluster := ⟨"", "", "", "", [], [], "", false, ""⟩

/-! ## Claim C1: role flags of generated units -/

/-- C1: in the generated unit's command arguments, a PRIMARY server carries
`--cluster-init` and no `--server` join flag, while a SECONDARY server and a
WORKER agent carry the pair `--server https://<primaryAddress>:6443` and no
`--cluster-init` — provided (amendment) that no configured string value
(backend, ranges, data dir, node name, token, tls-san, disable or label
entries) is itself one of the two role-flag tokens, since such a value would
be injected verbatim into the argument list. -/
theorem C1_role_flags (c : Cluster) (n : Node) (ip : String)
    (hff : ∀ v ∈ cfgStrings c n, v ≠ "--cluster-init" ∧ v ≠ "--server") :
    ("--cluster-init" ∈ serverArgs c n ip true ∧
      "--server" ∉ serverArgs c n ip true) ∧
    (["--server", joinTargetURL ip] <:+: serverArgs c n ip false ∧
      "--cluster-init" ∉ serverArgs c n ip false) ∧
    (["--server", joinTargetURL ip] <:+: agentArgs c n ip ∧
      "--cluster-init" ∉ agentArgs c n ip) := by
  refine ⟨⟨?_, ?_⟩, ⟨?_, ?_⟩, ⟨?_, ?_⟩⟩
  · rw [serverArgs_decomp]
    simp [roleFlags]
  · intro h
    rcases mem_serverArgs h with h | h | ⟨h1, _⟩
    · simp [roleFlags] at h
    · simp [serverFlagNames] at h
    · exact (hff _ h1).2 rfl
  · refine ⟨["server"],
      optFlag "--flannel-backend" c.flannelBackend ++
        optFlag "--cluster-cidr" c.clusterCidr ++
        optFlag "--service-cidr" c.serviceCidr ++
        optFlag "--data-dir" c.dataDir ++
        optFlag "--node-name" n.nodeName ++
        embFlag c.embeddedRegistry ++
        eachFlag "--tls-san" c.tlsSan ++
        eachFlag "--disable" c.disable ++
        eachFlag "--node-label" n.labels, ?_⟩
    rw [serverArgs_decomp]
    simp [roleFlags, List.append_assoc]
  · intro h
    rcases mem_serverArgs h with h | h | ⟨h1, _⟩
    · simp [roleFlags] at h
      exact joinTargetURL_ne_cluster_init ip h.symm
    · simp [serverFlagNames] at h
    · exact (hff _ h1).1 rfl
  · refine ⟨["agent"],
      optFlag "--data-dir" c.dataDir ++
        optFlag "--node-name" n.nodeName ++
        eachFlag "--node-label" n.labels ++ ["--token", c.token], ?_⟩
    rw [agentArgs_decomp]
    simp [List.append_assoc]
  · intro h
    rcases mem_agentArgs h with h | h | ⟨h1, _⟩ | h
    · simp at h
      exact joinTargetURL_ne_cluster_init ip h.symm
    · simp at h
    · exact (hff _ h1).1 rfl
    · exact (hff c.token (by simp [cfgStrings])).1 h.symm

/-- C1 witness: the amended theorem applied at a concrete configuration. -/
theorem C1_role_flags_witness :
    ("--cluster-init" ∈ serverArgs clusterW nodeW "10.0.0.1" true ∧
      "--server" ∉ serverArgs clusterW nodeW "10.0.0.1" true) ∧
    (["--server", joinTargetURL "10.0.0.1"] <:+:
        serverArgs clusterW nodeW "10.0.0.1" false ∧
      "--cluster-init" ∉ serverArgs clusterW nodeW "10.0.0.1" false) ∧
    (["--server", joinTargetURL "10.0.0.1"] <:+:
        agentArgs clusterW nodeW "10.0.0.1" ∧
      "--cluster-init" ∉ agentArgs clusterW nodeW "10.0.0.1") :=
  C1_role_flags clusterW nodeW "10.0.0.1" (by decide)

/-- C1 counterexample: with a node label that is literally
`--cluster-init`, the WORKER unit's argument list does contain the
cluster-initialization flag token, so the unrestricted claim is false. -/
theorem C1_counterexample :
    "--cluster-init" ∈
      agentArgs clusterNoTok ⟨"w1", "10.0.0.4", 22, "", "", "",
        ["--cluster-init"]⟩ "10.0.0.1" := by decide

/-! ## Claim C4: fixed flag order, empty values omitted -/

/-- C4 (amended): the generated argument lists decompose into the spec's
fixed groups in order — role flags, then (flannel backend,) network ranges,
data directory, node name, embedded-registry toggle, certificate names,
disabled components, node labels, and the shared token last — and every
group except the token omits a flag whose backing value is empty: the server
list never contains an empty argument, while the agent list contains an
empty argument exactly when the token is empty, because the token flag is
emitted unconditionally. -/
theorem C4_flag_order (c : Cluster) (n : Node) (ip : String) (b : Bool) :
    (serverArgs c n ip b =
      roleFlags ip b ++
      optFlag "--flannel-backend" c.flannelBackend ++
      optFlag "--cluster-cidr" c.clusterCidr ++
      optFlag "--service-cidr" c.serviceCidr ++
      optFlag "--data-dir" c.dataDir ++
      optFlag "--node-name" n.nodeName ++
      embFlag c.embeddedRegistry ++
      eachFlag "--tls-san" c.tlsSan ++
      eachFlag "--disable" c.disable ++
      eachFlag "--node-label" n.labels) ∧
    (agentArgs c n ip =
      ["agent", "--server", joinTargetURL ip] ++
      optFlag "--data-dir" c.dataDir ++
      optFlag "--node-name" n.nodeName ++
      eachFlag "--node-label" n.labels ++
      ["--token", c.token]) ∧
    (serverCmd c n ip b =
      "/usr/local/bin/k3s " ++
        String.intercalate " " (serverArgs c n ip b) ++
        " --token " ++ c.token) ∧
    "" ∉ serverArgs c n ip b ∧
    ("" ∈ agentArgs c n ip ↔ c.token = "") := by
  refine ⟨serverArgs_decomp c n ip b, agentArgs_decomp c n ip, rfl, ?_, ?_⟩
  · intro h
    rcases mem_serverArgs h with h | h | ⟨_, h2⟩
    · unfold roleFlags at h
      cases b <;> simp at h
      exact joinTargetURL_ne_empty ip h.symm
    · simp [serverFlagNames] at h
    · exact h2 rfl
  · constructor
    · intro h
      rcases mem_agentArgs h with h | h | ⟨_, h2⟩ | h
      · simp at h
        exact absurd h.symm (joinTargetURL_ne_empty ip)
      · simp at h
      · exact absurd rfl h2
      · exact h.symm
    · intro h
      rw [agentArgs_decomp]
      simp [h]

/-- C4 counterexample: with an empty token the agent unit's argument list
ends with the pair `--token` `""` — a flag emitted with an empty argument
rather than omitted, refuting the unrestricted claim. -/
theorem C4_counterexample :
    agentArgs clusterNoTok ⟨"", "", 0, "", "", "", []⟩ "1.2.3.4" =
      ["agent", "--server", "https://1.2.3.4:6443", "--token", ""] ∧
    "" ∈ agentArgs clusterNoTok ⟨"", "", 0, "", "", "", []⟩ "1.2.3.4" := by
  constructor <;> decide

/-! ## Claim C7: determinism / purity of unit generation -/

/-- C7: service-unit generation is a pure function of the node, role,
primary address and cluster configuration: any two installers that agree on
the cluster configuration produce byte-identical unit text for identical
node/role/address inputs, independent of every other field (assets,
directories, verbosity) and of any effect environment. -/
theorem C7_unit_generation_pure (i1 i2 : Installer) (n : Node) (ip : String)
    (b : Bool) (h : i1.cfg.cluster = i2.cfg.cluster) :
    serverServiceContent i1 n ip b = serverServiceContent i2 n ip b ∧
    agentServiceContent i1 n ip = agentServiceContent i2 n ip := by
  unfold serverServiceContent agentServiceContent
  rw [h]
  exact ⟨rfl, rfl⟩

def instA : Installer := ⟨⟨clusterW, ⟨"k3s", ""⟩, [nodeW], []⟩, "a", "a", false⟩

def instB : Installer :=
  ⟨⟨clusterW, ⟨"http://x/k3s", "imgs.tar.gz"⟩, [], [nodeW]⟩, "b", "b", true⟩

/-- C7 witness: two installers differing in everything but the cluster
configuration generate identical unit text. -/
theorem C7_unit_generation_pure_witness :
    serverServiceContent instA nodeW "10.0.0.1" true =
      serverServiceContent instB nodeW "10.0.0.1" true ∧
    agentServiceContent instA nodeW "10.0.0.1" =
      agentServiceContent instB nodeW "10.0.0.1" :=
  C7_unit_generation_pure instA instB nodeW "10.0.0.1" true rfl

/-! ## String replacement (models Go strings.ReplaceAll, used with the
fixed nonempty pattern "127.0.0.1") -/

/-- Leftmost, non-overlapping replacement of `pat` by `repl` in a character
list, as `strings.ReplaceAll` performs it.  The `pat ≠ []` guard only rules
out the empty pattern (which the source never uses). -/
def repAllAux (pat repl : List Char) : List Char → List Char
  | [] => []
  | c :: t =>
    if pat.isPrefixOf (c :: t) ∧ pat ≠ [] then
      repl ++ repAllAux pat repl (List.drop (pat.length - 1) t)
    else c :: repAllAux pat repl t
termination_by s => s.length
decreasing_by
  · simp only [List.length_drop, List.length_cons]
    omega
  · simp

/-- `strings.ReplaceAll` on strings. -/
def replaceAllStr (s pat repl : String) : String :=
  ⟨repAllAux pat.data repl.data s.data⟩

/-- Occurrence test: does `pat` occur as a contiguous run inside `s`? -/
def containsSeq (pat : List Char) : List Char → Bool
  | [] => pat.isPrefixOf []
  | c :: t => pat.isPrefixOf (c :: t) || containsSeq pat t

/-- String containment (the sense in which a server URL "contains" the
loopback host). -/
def strContainsSub (s pat : String) : Bool :=
  containsSeq pat.data s.data

/-! ## Generic YAML value model (the shape `yaml.Unmarshal` produces for
`map[string]interface{}` documents; serialization itself is out of scope) -/

inductive YVal where
  | nullv
  | boolv (b : Bool)
  | intv (n : Int)
  | str (s : String)
  | list (items : List YVal)
  | map (entries : List (String × YVal))

/-- A top-level YAML mapping, i.e. Go's `map[string]interface{}`. -/
abbrev YMap := List (String × YVal)

/-- Key lookup in a mapping (`config["clusters"]`). -/
def lookupY (m : YMap) (k : String) : Option YVal :=
  match m with
  | [] => none
  | (k', v) :: rest => if k' = k then some v else lookupY rest k

/-- Key update in a mapping (the effect of `clusterData["server"] = newURL`
seen through the enclosing references). -/
def updateY (m : YMap) (k : String) (v : YVal) : YMap :=
  m.map (fun p => if p.1 = k then (k, v) else p)

/-- `replaceKubeconfigServer` (install.go lines 474-501) at the level of the
parsed document: navigate `clusters[0].cluster.server`, replace every
occurrence of `127.0.0.1`, record whether anything changed.  Any failure of
a lookup or type assertion falls through to returning the document
unchanged with `false`, exactly as the Go `if ... ok` chain does. -/
def replaceKubeconfigServer (m : YMap) (serverIP : String) : YMap × Bool :=
  match lookupY m "clusters" with
  | some (.list (c0 :: rest)) =>
    match c0 with
    | .map fc =>
      match lookupY fc "cluster" with
      | some (.map cd) =>
        match lookupY cd "server" with
        | some (.str serverURL) =>
          let newURL := replaceAllStr serverURL "127.0.0.1" serverIP
          if newURL ≠ serverURL then
            (updateY m "clusters"
              (.list (.map (updateY fc "cluster"
                (.map (updateY cd "server" (.str newURL)))) :: rest)), true)
          else (m, false)
        | _ => (m, false)
      | _ => (m, false)
    | _ => (m, false)
  | _ => (m, false)

/-! ## Effect model: errors, events, traced results -/

inductive Err where
  | msg (s : String)
  | cmdFailed (cmd stdout stderr errText : String)
  | wrap (s : String) (e : Err)
deriving DecidableEq

inductive Event where
  | connect (addr : String) (port : Nat) (user : String)
  | cmd (addr line : String)
  | upload (addr localPath remotePath : String)
  | uploadBytes (addr remotePath content : String)
  | downloadBytes (addr remotePath : String)
  | sleep (secs : Nat)
  | writeLocal (path content : String)
  | warn (m : String)
deriving DecidableEq

/-- A computation outcome together with the ordered trace of effects it
performed before finishing or failing. -/
instance {ε α : Type} [DecidableEq ε] [DecidableEq α] :
    DecidableEq (Except ε α)
  | .error a, .error b => decidable_of_iff (a = b) (by simp)
  | .error _, .ok _ => isFalse (by simp)
  | .ok _, .error _ => isFalse (by simp)
  | .ok a, .ok b => decidable_of_iff (a = b) (by simp)

structure Res (α : Type) where
  result : Except Err α
  trace : List Event

instance {α : Type} [DecidableEq α] : DecidableEq (Res α) := fun x y =>
  decidable_of_iff (x.result = y.result ∧ x.trace = y.trace)
    (by cases x; cases y; simp)

/-- Sequencing: on failure the continuation contributes nothing; on success
the traces concatenate in order. -/
def Res.bind (x : Res α) (f : α → Res β) : Res β :=
  match x.result with
  | .error e => ⟨.error e, x.trace⟩
  | .ok a => ⟨(f a).result, x.trace ++ (f a).trace⟩

instance : Monad Res where
  pure a := ⟨.ok a, []⟩
  bind := Res.bind

theorem Res.bind_error {α β : Type} {x : Res α} {e : Err}
    (h : x.result = .error e) (f : α → Res β) :
    Res.bind x f = ⟨.error e, x.trace⟩ := by
  simp [Res.bind, h]

theorem Res.bind_ok {α β : Type} {x : Res α} {a : α}
    (h : x.result = .ok a) (f : α → Res β) :
    Res.bind x f = ⟨(f a).result, x.trace ++ (f a).trace⟩ := by
  simp [Res.bind, h]

theorem Res.bind_inv {α β : Type} {x : Res α} {f : α → Res β} {b : β}
    (h : (Res.bind x f).result = .ok b) :
    ∃ a, x.result = .ok a ∧ (f a).result = .ok b ∧
      (Res.bind x f).trace = x.trace ++ (f a).trace := by
  cases hx : x.result with
  | error e => rw [Res.bind_error hx] at h; exact absurd h (by simp)
  | ok a =>
    rw [Res.bind_ok hx] at h
    exact ⟨a, rfl, h, by rw [Res.bind_ok hx]⟩

theorem Res.mem_bind_trace {α β : Type} {x : Res α} {f : α → Res β}
    {ev : Event} (h : ev ∈ (Res.bind x f).trace) :
    ev ∈ x.trace ∨ ∃ a, x.result = .ok a ∧ ev ∈ (f a).trace := by
  cases hx : x.result with
  | error e => rw [Res.bind_error hx] at h; exact Or.inl h
  | ok a =>
    rw [Res.bind_ok hx] at h
    simp only [List.mem_append] at h
    rcases h with h | h
    · exact Or.inl h
    · exact Or.inr ⟨a, rfl, h⟩

/-! ## The remote-effect environment -/

structure Auth where
  password : String
  keyPath : String
deriving DecidableEq

/-- Oracles for every external effect the installer performs.  `run` yields
captured stdout, stderr and an optional error text, as `Client.Run` does;
`parseYaml`/`marshalYaml` abstract the YAML library (out of scope per the
spec); `resolveAsset` abstracts the asset manager inside the install flow
(its own embedding, `ResolveAsset` below, is verified separately). -/
structure Env where
  connect : String → Nat → String → Auth → Except Err Unit
  run : String → String → String × String × Option String
  upload : String → String → String → Except Err Unit
  uploadBytes : String → String → String → Except Err Unit
  downloadBytes : String → String → Except Err String
  resolveAsset : String → String → Except Err String
  parseYaml : String → Except Err YMap
  marshalYaml : YMap → String
  writeFile : String → String → Except Err Unit

/-- `runCmd` (install.go line 416): run, then wrap a failure together with
the command text and both captured streams. -/
def runCmdA (env : Env) (addr line : String) : Res Unit :=
  let r := env.run addr line
  ⟨match r.2.2 with
    | none => .ok ()
    | some errText => .error (.cmdFailed line r.1 r.2.1 errText),
    [.cmd addr line]⟩

/-- `sshclient.New` with the user defaulted to root when empty. -/
def connectA (env : Env) (n : Node) : Res Unit :=
  let user := if n.user = "" then "root" else n.user
  ⟨env.connect n.ip n.port user ⟨n.password, n.keyPath⟩,
    [.connect n.ip n.port user]⟩

def uploadA (env : Env) (addr localPath remotePath : String) : Res Unit :=
  ⟨env.upload addr localPath remotePath, [.upload addr localPath remotePath]⟩

def uploadBytesA (env : Env) (addr remotePath content : String) : Res Unit :=
  ⟨env.uploadBytes addr remotePath content,
    [.uploadBytes addr remotePath content]⟩

def downloadBytesA (env : Env) (addr remotePath : String) : Res String :=
  ⟨env.downloadBytes addr remotePath, [.downloadBytes addr remotePath]⟩

def sleepA (secs : Nat) : Res Unit := ⟨.ok (), [.sleep secs]⟩

def resolveA (env : Env) (source desc : String) : Res String :=
  ⟨env.resolveAsset source desc, []⟩

/-- Go `filepath.Join` modelled as slash-intercalation of the nonempty
components (the additional path cleaning is immaterial for these inputs). -/
def joinPath (parts : List String) : String :=
  String.intercalate "/" (parts.filter (fun p => p ≠ ""))

/-! ## The per-node provisioning sequence (install.go) -/

/-- Modelled from the spec: the embedded uninstall-script template asset
(`uninstallTmplContent`) is not among the sources; per the spec the
generator produces "a role-specific uninstall script parameterized by the
effective data directory", modelled here as a deterministic text in those
two inputs. -/
def uninstallScriptText (dataDir : String) (isAgent : Bool) : String :=
  "#!/bin/sh\n# k3s uninstall\nDATA_DIR=" ++ dataDir ++ "\nIS_AGENT=" ++
    (if isAgent then "true" else "false") ++ "\n"

/-- `uninstallScriptContent`: data-dir defaulting then template execution. -/
def uninstallScriptContent (i : Installer) : String :=
  let dataDir := if i.cfg.cluster.dataDir = "" then "/var/lib/rancher/k3s"
    else i.cfg.cluster.dataDir
  uninstallScriptText dataDir false

/-- `agentUninstallScriptContent`. -/
def agentUninstallScriptContent (i : Installer) : String :=
  let dataDir := if i.cfg.cluster.dataDir = "" then "/var/lib/rancher/k3s"
    else i.cfg.cluster.dataDir
  uninstallScriptText dataDir true

/-- `prepareNode`: the three idempotent directory creations. -/
def prepareNode (env : Env) (i : Installer) (addr : String) : Res Unit := do
  runCmdA env addr "mkdir -p /usr/local/bin"
  runCmdA env addr
    ("mkdir -p " ++ joinPath [i.cfg.cluster.dataDir, "agent", "images"])
  runCmdA env addr "mkdir -p /etc/rancher/k3s"

/-- `uploadAssets`: resolve and push the k3s binary (fatal on failure),
best-effort airgap bundle (resolution failure downgraded to a warning),
optional registries document. -/
def uploadAssets (env : Env) (i : Installer) (addr : String) : Res Unit := do
  let k3sPath ← resolveA env i.cfg.assets.k3sBinary "k3s binary"
  uploadA env addr k3sPath "/usr/local/bin/k3s"
  runCmdA env addr "chmod +x /usr/local/bin/k3s"
  (if i.cfg.assets.k3sAirgapTarball ≠ "" then
    match env.resolveAsset i.cfg.assets.k3sAirgapTarball "airgap images" with
    | .error _ => (⟨.ok (), [.warn "skipping images archive"]⟩ : Res Unit)
    | .ok imgPath =>
      uploadA env addr imgPath
        (joinPath [i.cfg.cluster.dataDir, "agent", "images",
          "k3s-airgap-images-amd64.tar.gz"])
  else pure ())
  if i.cfg.cluster.registries ≠ "" then
    uploadBytesA env addr "/etc/rancher/k3s/registries.yaml"
      i.cfg.cluster.registries
  else pure ()

/-- `installServer` (install.go lines 80-150). -/
def installServer (env : Env) (i : Installer) (node : Node)
    (primaryIP : String) (isPrimary : Bool) : Res Unit := do
  connectA env node
  prepareNode env i node.ip
  uploadAssets env i node.ip
  uploadBytesA env node.ip "/usr/local/bin/k3s-uninstall.sh"
    (uninstallScriptContent i)
  runCmdA env node.ip "chmod +x /usr/local/bin/k3s-uninstall.sh"
  uploadBytesA env node.ip "/etc/systemd/system/k3s.service"
    (serverServiceContent i node primaryIP isPrimary)
  runCmdA env node.ip "systemctl daemon-reload"
  runCmdA env node.ip "systemctl enable k3s"
  runCmdA env node.ip "systemctl restart k3s"
  sleepA 2
  runCmdA env node.ip "cp /usr/local/bin/k3s /usr/local/bin/kubectl -f"

/-- `installAgent` (install.go lines 152-212); no kubectl step. -/
def installAgent (env : Env) (i : Installer) (node : Node)
    (primaryIP : String) : Res Unit := do
  connectA env node
  prepareNode env i node.ip
  uploadAssets env i node.ip
  uploadBytesA env node.ip "/usr/local/bin/k3s-uninstall.sh"
    (agentUninstallScriptContent i)
  runCmdA env node.ip "chmod +x /usr/local/bin/k3s-uninstall.sh"
  uploadBytesA env node.ip "/etc/systemd/system/k3s-agent.service"
    (agentServiceContent i node primaryIP)
  runCmdA env node.ip "systemctl daemon-reload"
  runCmdA env node.ip "systemctl enable k3s-agent"
  runCmdA env node.ip "systemctl restart k3s-agent"
  sleepA 2

/-- `replaceKubeconfigServer` at the byte level: unmarshal via the abstract
YAML oracle, patch, re-marshal (re-marshaling of a well-formed value is
modelled as total). -/
def replaceKubeconfigServerBytes (env : Env) (data serverIP : String) :
    Except Err (String × Bool) :=
  match env.parseYaml data with
  | .error e => .error e
  | .ok m =>
    let r := replaceKubeconfigServer m serverIP
    .ok (env.marshalYaml r.1, r.2)

/-- The try/fallback fetch inside `downloadKubeconfig`: try the configured
data-dir credential path, fall back to the distribution default on any
failure, wrapping a failure of the fallback. -/
def fetchKubeconfig (env : Env) (i : Installer) (master : Node) :
    Res String :=
  let dl1 := downloadBytesA env master.ip
    (joinPath [i.cfg.cluster.dataDir, "server", "cred", "k3s.yaml"])
  match dl1.result with
  | .ok _ => dl1
  | .error _ =>
    let dl2 := downloadBytesA env master.ip "/etc/rancher/k3s/k3s.yaml"
    ⟨match dl2.result with
      | .ok c => .ok c
      | .error e => .error (.wrap "failed to download kubeconfig" e),
      dl1.trace ++ dl2.trace⟩

/-- `downloadKubeconfig` (install.go lines 424-471): connect to the primary,
fetch the credential file (with path fallback), patch the loopback address,
write the local `kubeconfig` file with owner-only permission. -/
def downloadKubeconfig (env : Env) (i : Installer) (master : Node) :
    Res Unit := do
  connectA env master
  let content ← fetchKubeconfig env i master
  match replaceKubeconfigServerBytes env content master.ip with
  | .error e =>
    (⟨.error (.wrap "failed to modify kubeconfig" e), []⟩ : Res Unit)
  | .ok (modified, _) =>
    ⟨match env.writeFile "kubeconfig" modified with
      | .ok _ => .ok ()
      | .error e => .error (.wrap "failed to write kubeconfig" e),
      [.writeLocal "kubeconfig" modified]⟩

/-- `showClusterInfo`: every failure is logged and swallowed; on success the
node listing is fetched twice (`runCmd` then a second `c.Run`). -/
def showClusterInfo (env : Env) (master : Node) : Res Unit :=
  let conn := connectA env master
  match conn.result with
  | .error _ => ⟨.ok (), conn.trace⟩
  | .ok _ =>
    let r1 := runCmdA env master.ip "kubectl get nodes"
    match r1.result with
    | .error _ => ⟨.ok (), conn.trace ++ r1.trace⟩
    | .ok _ =>
      let r2 := runCmdA env master.ip "kubectl get nodes"
      ⟨.ok (), conn.trace ++ r1.trace ++ r2.trace⟩

/-- The `if err := ...; err != nil { slog.Warn(...) }` downgrade pattern. -/
def warnOnError (x : Res Unit) (m : String) : Res Unit :=
  match x.result with
  | .ok _ => ⟨.ok (), x.trace⟩
  | .error _ => ⟨.ok (), x.trace ++ [.warn m]⟩

/-- The server loop of `Apply` over the indexed server list. -/
def applyServers (env : Env) (i : Installer) (primaryIP : String) :
    List (Nat × Node) → Res Unit
  | [] => pure ()
  | (idx, srv) :: rest => do
    installServer env i srv primaryIP (idx == 0)
    applyServers env i primaryIP rest

/-- The agent loop of `Apply`. -/
def applyAgents (env : Env) (i : Installer) (primaryIP : String) :
    List Node → Res Unit
  | [] => pure ()
  | ag :: rest => do
    installAgent env i ag primaryIP
    applyAgents env i primaryIP rest

/-- `Apply` (install.go lines 54-78): fail on an empty server list, provision
every server in order (index 0 primary), then every agent, then best-effort
kubeconfig download and cluster-info display. -/
def Apply (env : Env) (i : Installer) : Res Unit :=
  match i.cfg.servers with
  | [] => ⟨.error (.msg "no servers defined"), []⟩
  | primary :: _ => do
    applyServers env i primary.ip i.cfg.servers.enum
    applyAgents env i primary.ip i.cfg.agents
    warnOnError (downloadKubeconfig env i primary)
      "failed to download kubeconfig"
    showClusterInfo env primary

/-! ## Sequencing lemmas for the node loops -/

/-- Run a list of already-formed per-node computations in order. -/
def runList : List (Res Unit) → Res Unit
  | [] => pure ()
  | x :: xs => Res.bind x (fun _ => runList xs)

/-- The per-node computations `Apply` performs, in order: servers by index
(index 0 primary) then agents, all against the first server's address. -/
def nodeRuns (env : Env) (i : Installer) : List (Res Unit) :=
  match i.cfg.servers with
  | [] => []
  | primary :: _ =>
    i.cfg.servers.enum.map
      (fun p => installServer env i p.2 primary.ip (p.1 == 0)) ++
    i.cfg.agents.map (fun n => installAgent env i n primary.ip)

theorem applyServers_eq_runList (env : Env) (i : Installer) (ip : String)
    (l : List (Nat × Node)) :
    applyServers env i ip l =
      runList (l.map (fun p => installServer env i p.2 ip (p.1 == 0))) := by
  induction l with
  | nil => rfl
  | cons x xs ih =>
    cases x
    show Res.bind _ _ = Res.bind _ _
    rw [ih]

theorem applyAgents_eq_runList (env : Env) (i : Installer) (ip : String)
    (l : List Node) :
    applyAgents env i ip l =
      runList (l.map (fun n => installAgent env i n ip)) := by
  induction l with
  | nil => rfl
  | cons x xs ih =>
    show Res.bind _ _ = Res.bind _ _
    rw [ih]

theorem Res.bind_assoc {α β γ : Type} (x : Res α) (f : α → Res β)
    (g : β → Res γ) :
    Res.bind (Res.bind x f) g = Res.bind x (fun a => Res.bind (f a) g) := by
  cases hx : x.result with
  | error e => rw [Res.bind_error hx, Res.bind_error hx,
      Res.bind_error (x := ⟨.error e, x.trace⟩) rfl]
  | ok a =>
    rw [Res.bind_ok hx, Res.bind_ok hx]
    cases hf : (f a).result with
    | error e =>
      rw [Res.bind_error (x := ⟨.error e, x.trace ++ (f a).trace⟩) rfl,
        Res.bind_error hf]
    | ok b =>
      rw [Res.bind_ok (x := ⟨.ok b, x.trace ++ (f a).trace⟩) rfl,
        Res.bind_ok hf]
      simp [List.append_assoc]

theorem runList_append (a b : List (Res Unit)) :
    runList (a ++ b) = Res.bind (runList a) (fun _ => runList b) := by
  induction a with
  | nil => rfl
  | cons x xs ih =>
    show Res.bind x (fun _ => runList (xs ++ b)) =
      Res.bind (Res.bind x (fun _ => runList xs)) (fun _ => runList b)
    rw [Res.bind_assoc]
    simp only [ih]

theorem runList_fails {pre : List (Res Unit)} {f : Res Unit}
    {rest : List (Res Unit)} {e : Err}
    (hpre : ∀ r ∈ pre, r.result = .ok ()) (hf : f.result = .error e) :
    (runList (pre ++ f :: rest)).result = .error e ∧
    (runList (pre ++ f :: rest)).trace =
      (pre.map Res.trace).flatten ++ f.trace := by
  induction pre with
  | nil =>
    show (Res.bind f _).result = _ ∧ (Res.bind f _).trace = _
    rw [Res.bind_error hf]
    simp
  | cons x xs ih =>
    have hx : x.result = .ok () := hpre x (by simp)
    have ih' := ih (fun r hr => hpre r (by simp [hr]))
    show (Res.bind x _).result = _ ∧ (Res.bind x _).trace = _
    rw [Res.bind_ok hx]
    refine ⟨ih'.1, ?_⟩
    show x.trace ++ (runList (xs ++ f :: rest)).trace = _
    rw [ih'.2]
    simp [List.append_assoc]

theorem runList_ok {l : List (Res Unit)}
    (h : ∀ r ∈ l, r.result = .ok ()) :
    (runList l).result = .ok () ∧
    (runList l).trace = (l.map Res.trace).flatten := by
  induction l with
  | nil => exact ⟨rfl, rfl⟩
  | cons x xs ih =>
    have hx : x.result = .ok () := h x (by simp)
    have ih' := ih (fun r hr => h r (by simp [hr]))
    show (Res.bind x _).result = _ ∧ (Res.bind x _).trace = _
    rw [Res.bind_ok hx]
    refine ⟨ih'.1, ?_⟩
    show x.trace ++ (runList xs).trace = _
    rw [ih'.2]
    simp

theorem bind_eq {α β : Type} (x : Res α) (f : α → Res β) :
    x >>= f = Res.bind x f := rfl

/-- `Apply` on a nonempty server list is: run all node provisioning
computations in order, then the best-effort kubeconfig and info steps. -/
theorem Apply_cons (env : Env) (i : Installer) (p : Node)
    (srest : List Node) (hs : i.cfg.servers = p :: srest) :
    Apply env i =
      Res.bind (runList (nodeRuns env i)) (fun _ =>
        Res.bind (warnOnError (downloadKubeconfig env i p)
          "failed to download kubeconfig") (fun _ =>
            showClusterInfo env p)) := by
  have h1 : Apply env i =
      Res.bind (applyServers env i p.ip i.cfg.servers.enum) (fun _ =>
        Res.bind (applyAgents env i p.ip i.cfg.agents) (fun _ =>
          Res.bind (warnOnError (downloadKubeconfig env i p)
            "failed to download kubeconfig") (fun _ =>
              showClusterInfo env p))) := by
    unfold Apply
    rw [hs]
    rfl
  have h2 : nodeRuns env i =
      i.cfg.servers.enum.map
        (fun q => installServer env i q.2 p.ip (q.1 == 0)) ++
      i.cfg.agents.map (fun n => installAgent env i n p.ip) := by
    unfold nodeRuns
    rw [hs]
  rw [h1, h2, runList_append, Res.bind_assoc]
  simp only [applyServers_eq_runList, applyAgents_eq_runList]

/-- C2: `Apply` runs the per-node provisioning computations strictly in
declared order — servers (index 0 as primary) then agents; if some node's
computation fails with `e` after all earlier ones succeeded, `Apply` returns
exactly `e`, its effect trace is precisely the traces of the completed nodes
followed by the failing node's trace (so no later node performs any step),
and nothing is ever appended after the failure (no rollback actions). -/
theorem C2_sequential_fail_fast (env : Env) (i : Installer)
    (pre : List (Res Unit)) (f : Res Unit) (rest : List (Res Unit)) (e : Err)
    (hruns : nodeRuns env i = pre ++ f :: rest)
    (hpre : ∀ r ∈ pre, r.result = .ok ())
    (hf : f.result = .error e) :
    (Apply env i).result = .error e ∧
    (Apply env i).trace = (pre.map Res.trace).flatten ++ f.trace := by
  have hs : ∃ p srest, i.cfg.servers = p :: srest := by
    cases h : i.cfg.servers with
    | nil =>
      have : nodeRuns env i = [] := by unfold nodeRuns; rw [h]
      rw [this] at hruns
      exact absurd hruns.symm (by simp)
    | cons p srest => exact ⟨p, srest, rfl⟩
  obtain ⟨p, srest, hs⟩ := hs
  rw [Apply_cons env i p srest hs, hruns]
  have hfail := @runList_fails pre f rest e hpre hf
  rw [Res.bind_error hfail.1]
  exact ⟨rfl, hfail.2⟩

/-! Fixtures for the C2 witness: three servers, the second of which fails
its very first remote command. -/

def srvA : Node := ⟨"s1", "10.0.0.1", 22, "root", "pw", "", []⟩

def srvB : Node := ⟨"s2", "10.0.0.2", 22, "root", "pw", "", []⟩

def srvC : Node := ⟨"s3", "10.0.0.3", 22, "root", "pw", "", []⟩

/-- Environment in which every effect succeeds except remote commands on
the second server's address. -/
def envW2 : Env :=
  ⟨fun _ _ _ _ => .ok (),
   fun addr _ =>
     if addr = "10.0.0.2" then ("", "boom", some "exit 1")
     else ("", "", none),
   fun _ _ _ => .ok (), fun _ _ _ => .ok (), fun _ _ => .ok "y",
   fun s _ => .ok s, fun _ => .ok [], fun _ => "", fun _ _ => .ok ()⟩

def instW2 : Installer :=
  ⟨⟨clusterW, ⟨"k3s", ""⟩, [srvA, srvB, srvC], []⟩, "a", "a", false⟩

/-- C2 witness: with servers s1, s2, s3 and s2's first command failing,
`Apply` returns that failure and its trace is s1's full trace followed by
s2's partial trace — s3 contributes nothing. -/
theorem C2_sequential_fail_fast_witness :
    (Apply envW2 instW2).result =
      .error (.cmdFailed "mkdir -p /usr/local/bin" "" "boom" "exit 1") ∧
    (Apply envW2 instW2).trace =
      ([installServer envW2 instW2 srvA "10.0.0.1" true].map
        Res.trace).flatten ++
        (installServer envW2 instW2 srvB "10.0.0.1" false).trace :=
  C2_sequential_fail_fast envW2 instW2
    [installServer envW2 instW2 srvA "10.0.0.1" true]
    (installServer envW2 instW2 srvB "10.0.0.1" false)
    [installServer envW2 instW2 srvC "10.0.0.1" false]
    (.cmdFailed "mkdir -p /usr/local/bin" "" "boom" "exit 1")
    rfl (by decide) (by decide)

theorem warnOnError_result (x : Res Unit) (m : String) :
    (warnOnError x m).result = .ok () := by
  unfold warnOnError
  cases x.result <;> rfl

theorem showClusterInfo_result (env : Env) (master : Node) :
    (showClusterInfo env master).result = .ok () := by
  cases hconn : (connectA env master).result with
  | error e => simp [showClusterInfo, hconn]
  | ok a =>
    cases hr : (runCmdA env master.ip "kubectl get nodes").result <;>
      simp [showClusterInfo, hconn, hr]

theorem fetchKubeconfig_trace_fail (env : Env) (i : Installer)
    (master : Node) (e : Err)
    (hdl : env.downloadBytes master.ip
      (joinPath [i.cfg.cluster.dataDir, "server", "cred", "k3s.yaml"]) =
      .error e) :
    (fetchKubeconfig env i master).trace =
      [.downloadBytes master.ip
         (joinPath [i.cfg.cluster.dataDir, "server", "cred", "k3s.yaml"]),
       .downloadBytes master.ip "/etc/rancher/k3s/k3s.yaml"] := by
  simp [fetchKubeconfig, downloadBytesA, hdl]

/-- C6: when every node's provisioning computation succeeds, `Apply`
returns ok regardless of how the credential-file step behaves — here under
hypotheses fixing the scenario in which the configured data-directory
credential path fails to download; and in that scenario the credential
step's first three effects are: connect to the primary, attempt the
configured data-directory path, then fall back to the distribution default
`/etc/rancher/k3s/k3s.yaml`. -/
theorem C6_kubeconfig_best_effort (env : Env) (i : Installer)
    (p : Node) (srest : List Node) (e : Err)
    (hs : i.cfg.servers = p :: srest)
    (hok : ∀ r ∈ nodeRuns env i, r.result = .ok ())
    (hconn : env.connect p.ip p.port
        (if p.user = "" then "root" else p.user)
        ⟨p.password, p.keyPath⟩ = .ok ())
    (hdl : env.downloadBytes p.ip
        (joinPath [i.cfg.cluster.dataDir, "server", "cred", "k3s.yaml"]) =
      .error e) :
    (Apply env i).result = .ok () ∧
    (downloadKubeconfig env i p).trace.take 3 =
      [.connect p.ip p.port (if p.user = "" then "root" else p.user),
       .downloadBytes p.ip
         (joinPath [i.cfg.cluster.dataDir, "server", "cred", "k3s.yaml"]),
       .downloadBytes p.ip "/etc/rancher/k3s/k3s.yaml"] := by
  constructor
  · rw [Apply_cons env i p srest hs]
    have h1 := runList_ok hok
    rw [Res.bind_ok h1.1]
    show (Res.bind (warnOnError _ _) _).result = _
    rw [Res.bind_ok (warnOnError_result _ _)]
    exact showClusterInfo_result env p
  · have hconn' : (connectA env p).result = .ok () := by
      simp [connectA, hconn]
    have hft := fetchKubeconfig_trace_fail env i p e hdl
    have hd : downloadKubeconfig env i p =
        Res.bind (connectA env p) (fun _ =>
          Res.bind (fetchKubeconfig env i p) (fun content =>
            match replaceKubeconfigServerBytes env content p.ip with
            | .error e2 =>
              ⟨.error (.wrap "failed to modify kubeconfig" e2), []⟩
            | .ok (modified, _) =>
              ⟨match env.writeFile "kubeconfig" modified with
                | .ok _ => .ok ()
                | .error e2 =>
                  .error (.wrap "failed to write kubeconfig" e2),
                [.writeLocal "kubeconfig" modified]⟩)) := rfl
    rw [hd, Res.bind_ok hconn']
    show ((connectA env p).trace ++
      (Res.bind (fetchKubeconfig env i p) _).trace).take 3 = _
    cases hF : (fetchKubeconfig env i p).result with
    | error e2 =>
      rw [Res.bind_error hF]
      show ((connectA env p).trace ++ (fetchKubeconfig env i p).trace).take 3
        = _
      rw [hft]
      simp [connectA]
    | ok c =>
      rw [Res.bind_ok hF]
      show ((connectA env p).trace ++
        ((fetchKubeconfig env i p).trace ++ _)).take 3 = _
      rw [hft]
      simp [connectA]

def agW : Node := ⟨"a1", "10.0.0.9", 22, "", "", "", []⟩

/-- Environment where everything succeeds except reading the configured
data-dir credential path on the primary. -/
def envW6 : Env :=
  ⟨fun _ _ _ _ => .ok (), fun _ _ => ("", "", none), fun _ _ _ => .ok (),
   fun _ _ _ => .ok (),
   fun _ path =>
     if path = "/etc/rancher/k3s/k3s.yaml" then .ok "apiVersion: v1"
     else .error (.msg "no such file"),
   fun s _ => .ok s, fun _ => .ok [], fun _ => "", fun _ _ => .ok ()⟩

def instW6 : Installer :=
  ⟨⟨clusterW, ⟨"k3s", ""⟩, [srvA], [agW]⟩, "a", "a", false⟩

/-- C6 witness: with one server and one agent provisioning successfully and
the data-dir credential path missing, `Apply` still returns ok and the
credential step falls back to the default path. -/
theorem C6_kubeconfig_best_effort_witness :
    (Apply envW6 instW6).result = .ok () ∧
    (downloadKubeconfig envW6 instW6 srvA).trace.take 3 =
      [.connect "10.0.0.1" 22 "root",
       .downloadBytes "10.0.0.1"
         (joinPath ["/var/lib/rancher/k3s", "server", "cred", "k3s.yaml"]),
       .downloadBytes "10.0.0.1" "/etc/rancher/k3s/k3s.yaml"] :=
  C6_kubeconfig_best_effort envW6 instW6 srvA [] (.msg "no such file")
    rfl (by decide) (by decide) (by decide)

/-! ## Claim C9: the kubectl convenience step -/

theorem Res.pure_trace {α : Type} (a : α) : (pure a : Res α).trace = [] := rfl

theorem kubectl_ne_mkdir_append (s : String) :
    ¬("cp /usr/local/bin/k3s /usr/local/bin/kubectl -f" =
      "mkdir -p " ++ s) := by
  intro h
  have := congrArg String.data h
  simp [String.data_append] at this

/-- After a sleep-then-command tail that succeeded, the last recorded
effect is that command and the one before it is the sleep. -/
theorem bind_sleep_cmd_last {y : Res Unit} {env : Env} {a c : String}
    (h : (Res.bind (Res.bind y (fun _ => sleepA 2))
      (fun _ => runCmdA env a c)).result = .ok ()) :
    (Res.bind (Res.bind y (fun _ => sleepA 2))
      (fun _ => runCmdA env a c)).trace.getLast? = some (.cmd a c) ∧
    (Res.bind (Res.bind y (fun _ => sleepA 2))
      (fun _ => runCmdA env a c)).trace.dropLast.getLast? =
      some (.sleep 2) := by
  obtain ⟨u, h1, h2, htr⟩ := Res.bind_inv h
  obtain ⟨v, h3, h4, htr2⟩ := Res.bind_inv h1
  rw [htr, htr2]
  constructor
  · show ((y.trace ++ [Event.sleep 2]) ++ [Event.cmd a c]).getLast? = _
    rw [List.getLast?_concat]
  · show (((y.trace ++ [Event.sleep 2]) ++
      [Event.cmd a c]).dropLast).getLast? = _
    rw [List.dropLast_concat, List.getLast?_concat]

/-- No step of the agent provisioning sequence ever issues the kubectl
copy command, on any environment and on any (partial) execution. -/
theorem kubectl_not_in_agent (env : Env) (i : Installer) (n2 : Node)
    (pip2 a : String) :
    Event.cmd a "cp /usr/local/bin/k3s /usr/local/bin/kubectl -f" ∉
      (installAgent env i n2 pip2).trace := by
  intro h
  simp only [installAgent, bind_eq] at h
  rcases Res.mem_bind_trace h with h | ⟨_, _, h⟩
  · simp [connectA] at h
  rcases Res.mem_bind_trace h with h | ⟨_, _, h⟩
  · simp only [prepareNode, bind_eq] at h
    rcases Res.mem_bind_trace h with h | ⟨_, _, h⟩
    · simp [runCmdA] at h
    rcases Res.mem_bind_trace h with h | ⟨_, _, h⟩
    · simp [runCmdA] at h
      exact kubectl_ne_mkdir_append _ h.2
    · simp [runCmdA] at h
  rcases Res.mem_bind_trace h with h | ⟨_, _, h⟩
  · simp only [uploadAssets, bind_eq] at h
    rcases Res.mem_bind_trace h with h | ⟨_, _, h⟩
    · simp [resolveA] at h
    rcases Res.mem_bind_trace h with h | ⟨_, _, h⟩
    · simp [uploadA] at h
    rcases Res.mem_bind_trace h with h | ⟨_, _, h⟩
    · simp [runCmdA] at h
    rcases Res.mem_bind_trace h with h | ⟨_, _, h⟩
    · by_cases hc : i.cfg.assets.k3sAirgapTarball = ""
      · simp [hc, Res.pure_trace] at h
      · cases hra : env.resolveAsset i.cfg.assets.k3sAirgapTarball
          "airgap images" with
        | error e => simp [hc, hra] at h
        | ok p => simp [hc, hra, uploadA] at h
    · by_cases hr : i.cfg.cluster.registries = ""
      · simp [hr, Res.pure_trace] at h
      · simp [hr, uploadBytesA] at h
  rcases Res.mem_bind_trace h with h | ⟨_, _, h⟩
  · simp [uploadBytesA] at h
  rcases Res.mem_bind_trace h with h | ⟨_, _, h⟩
  · simp [runCmdA] at h
  rcases Res.mem_bind_trace h with h | ⟨_, _, h⟩
  · simp [uploadBytesA] at h
  rcases Res.mem_bind_trace h with h | ⟨_, _, h⟩
  · simp [runCmdA] at h
  rcases Res.mem_bind_trace h with h | ⟨_, _, h⟩
  · simp [runCmdA] at h
  rcases Res.mem_bind_trace h with h | ⟨_, _, h⟩
  · simp [runCmdA] at h
  · simp [sleepA] at h

/-- C9 (amended): in a server provisioning run that succeeds, the final
recorded step — after the fixed 2-second settle — is the command
`cp /usr/local/bin/k3s /usr/local/bin/kubectl -f`, which makes the uploaded
binary available under the client-tool name kubectl by copying (not by
creating a symlink); the agent sequence never issues that command. -/
theorem C9_kubectl_copy (env : Env) (i : Installer) (node n2 : Node)
    (pip pip2 a : String) (b : Bool)
    (hs : (installServer env i node pip b).result = .ok ()) :
    (installServer env i node pip b).trace.getLast? =
      some (.cmd node.ip
        "cp /usr/local/bin/k3s /usr/local/bin/kubectl -f") ∧
    (installServer env i node pip b).trace.dropLast.getLast? =
      some (.sleep 2) ∧
    Event.cmd a "cp /usr/local/bin/k3s /usr/local/bin/kubectl -f" ∉
      (installAgent env i n2 pip2).trace := by
  simp only [installServer, bind_eq, ← Res.bind_assoc] at hs ⊢
  exact ⟨(bind_sleep_cmd_last hs).1, (bind_sleep_cmd_last hs).2,
    kubectl_not_in_agent env i n2 pip2 a⟩

/-- Environment in which every effect succeeds. -/
def envOK : Env :=
  ⟨fun _ _ _ _ => .ok (), fun _ _ => ("", "", none), fun _ _ _ => .ok (),
   fun _ _ _ => .ok (), fun _ _ => .ok "apiVersion: v1", fun s _ => .ok s,
   fun _ => .ok [], fun _ => "", fun _ _ => .ok ()⟩

/-- C9 witness: the amended theorem at a concrete all-success run. -/
theorem C9_kubectl_copy_witness :
    (installServer envOK instA nodeW "10.0.0.1" true).trace.getLast? =
      some (.cmd "10.0.0.1"
        "cp /usr/local/bin/k3s /usr/local/bin/kubectl -f") ∧
    (installServer envOK instA nodeW "10.0.0.1" true).trace.dropLast.getLast?
      = some (.sleep 2) ∧
    Event.cmd "10.0.0.4"
        "cp /usr/local/bin/k3s /usr/local/bin/kubectl -f" ∉
      (installAgent envOK instA agW "10.0.0.1").trace :=
  C9_kubectl_copy envOK instA nodeW agW "10.0.0.1" "10.0.0.1" "10.0.0.4"
    true (by decide)

/-- C9 counterexample to the claim as worded: the final step issues a `cp`
command, not a symlink-creating `ln` invocation. -/
theorem C9_counterexample :
    (installServer envOK instA nodeW "10.0.0.1" true).trace.getLast? =
      some (.cmd "10.0.0.1"
        "cp /usr/local/bin/k3s /usr/local/bin/kubectl -f") ∧
    ("ln ".data.isPrefixOf
      "cp /usr/local/bin/k3s /usr/local/bin/kubectl -f".data) = false := by
  constructor
  · decide
  · decide

/-! ## Asset resolution (internal/install/assets.go) -/

/-- `isURL`: prefix test for the two schemes. -/
def isURL (path : String) : Bool :=
  "http://".data.isPrefixOf path.data || "https://".data.isPrefixOf path.data

def takeUntilChar (c : Char) : List Char → List Char
  | [] => []
  | x :: xs => if x = c then [] else x :: takeUntilChar c xs

def dropUntilChar (c : Char) : List Char → List Char
  | [] => []
  | x :: xs => if x = c then x :: xs else dropUntilChar c xs

def splitOnChar (c : Char) : List Char → List (List Char)
  | [] => [[]]
  | x :: xs =>
    if x = c then [] :: splitOnChar c xs
    else match splitOnChar c xs with
      | [] => [[x]]
      | p :: ps => (x :: p) :: ps

/-- The path component of an http(s) URL: drop the scheme, cut fragment and
query, keep everything from the first slash (percent-decoding is immaterial
here and omitted); models what `url.Parse(...).Path` yields for the URLs at
hand. -/
def urlPath (source : String) : List Char :=
  let rest :=
    if "http://".data.isPrefixOf source.data then source.data.drop 7
    else if "https://".data.isPrefixOf source.data then source.data.drop 8
    else source.data
  dropUntilChar '/' (takeUntilChar '?' (takeUntilChar '#' rest))

/-- `getFilenameFromURL`: the last `/`-separated segment of the URL path. -/
def getFilenameFromURL (source : String) : String :=
  match (splitOnChar '/' (urlPath source)).getLast? with
  | none => ""
  | some seg => ⟨seg⟩

/-- The asset manager's state: its exclusively-owned temp directory and the
files recorded for cleanup. -/
structure AssetManager where
  tempDir : String
  downloadedFiles : List String
deriving DecidableEq

inductive StatOutcome where
  | found
  | notFound
  | accessErr (m : String)
deriving DecidableEq

/-- Filesystem/network oracles for the asset resolver. -/
structure FsEnv where
  stat : String → StatOutcome
  createFile : String → Except String Unit
  httpGet : String → Except String (Nat × String)

inductive REvent where
  | statF (path : String)
  | createFile (path : String)
  | httpGet (source : String)
deriving DecidableEq

/-- `download` (assets.go lines 97-149): derive the file name from the URL,
create the temp file, issue the GET, require status 200. -/
def download (fe : FsEnv) (am : AssetManager) (source : String) :
    Except Err String × List REvent :=
  let filename := getFilenameFromURL source
  if filename = "" then
    (.error (.msg ("cannot determine filename from URL: " ++ source)), [])
  else
    let localPath := am.tempDir ++ "/" ++ filename
    match fe.createFile localPath with
    | .error e =>
      (.error (.msg ("failed to create temp file: " ++ e)),
        [.createFile localPath])
    | .ok _ =>
      match fe.httpGet source with
      | .error e =>
        (.error (.msg ("download request failed: " ++ e)),
          [.createFile localPath, .httpGet source])
      | .ok (status, _) =>
        if status ≠ 200 then
          (.error (.msg "download failed with status"),
            [.createFile localPath, .httpGet source])
        else (.ok localPath, [.createFile localPath, .httpGet source])

/-- The not-found remediation hints (assets.go lines 74-88). -/
def notFoundHint (source : String) : String :=
  if source = "k3s" ∨ source = "./k3s" then
    "\n\nPlease download k3s binary:\n  wget https://github.com/k3s-io/k3s/releases/download/v1.28.5+k3s1/k3s\n  chmod +x k3s\nOr configure a URL in your init.yaml under assets.k3s-binary"
  else if source = "k3s-airgap-images-amd64.tar.gz" ∨
      source = "./k3s-airgap-images-amd64.tar.gz" then
    "\n\nPlease download k3s airgap images:\n  wget https://github.com/k3s-io/k3s/releases/download/v1.28.5+k3s1/k3s-airgap-images-amd64.tar.gz\nOr configure a URL in your init.yaml under assets.k3s-airgap-tarball"
  else ""

/-- `ResolveAsset` (assets.go lines 58-94): URLs are downloaded into the
temp directory and recorded for cleanup; an existing local path is returned
unchanged; a missing local path fails with a hint. -/
def ResolveAsset (fe : FsEnv) (am : AssetManager) (source desc : String) :
    Except Err String × List REvent × AssetManager :=
  if isURL source then
    let d := download fe am source
    match d.1 with
    | .error e => (.error (.wrap ("failed to download " ++ desc) e), d.2, am)
    | .ok localPath =>
      (.ok localPath, d.2,
        ⟨am.tempDir, am.downloadedFiles ++ [localPath]⟩)
  else
    match fe.stat source with
    | .found => (.ok source, [.statF source], am)
    | .notFound =>
      (.error (.msg (desc ++ " file not found: " ++ source ++
        notFoundHint source)), [.statF source], am)
    | .accessErr e =>
      (.error (.msg ("failed to access " ++ desc ++ ": " ++ e)),
        [.statF source], am)

/-- C8: for a reference that is not an http(s) URL and that the filesystem
reports as existing, `ResolveAsset` returns exactly that reference (its
trace is the lone stat, so no network request and no temp-file creation)
and the manager state — in particular the cleanup record — is unchanged. -/
theorem C8_local_asset_identity (fe : FsEnv) (am : AssetManager)
    (source desc : String) (hurl : isURL source = false)
    (hstat : fe.stat source = .found) :
    ResolveAsset fe am source desc = (.ok source, [.statF source], am) := by
  simp [ResolveAsset, hurl, hstat]

def feW : FsEnv :=
  ⟨fun p => if p = "./k3s" then .found else .notFound,
   fun _ => .ok (), fun _ => .ok (200, "bin")⟩

def amW : AssetManager := ⟨"/tmp/k3air-assets-1234", []⟩

/-- C8 witness at a concrete existing local path. -/
theorem C8_local_asset_identity_witness :
    ResolveAsset feW amW "./k3s" "k3s binary" =
      (.ok "./k3s", [.statF "./k3s"], amW) :=
  C8_local_asset_identity feW amW "./k3s" "k3s binary" (by decide) (by decide)

/-! ## Properties of the replacement function -/

theorem containsSeq_nil_false {pat : List Char} (hne : pat ≠ []) :
    containsSeq pat [] = false := by
  cases pat with
  | nil => exact absurd rfl hne
  | cons p ps => simp [containsSeq, List.isPrefixOf]

theorem containsSeq_cons (pat : List Char) (c : Char) (t : List Char) :
    containsSeq pat (c :: t) =
      (pat.isPrefixOf (c :: t) || containsSeq pat t) := rfl

theorem repAllAux_id_of_not_contains (pat repl s : List Char)
    (hocc : containsSeq pat s = false) : repAllAux pat repl s = s := by
  induction s using repAllAux.induct pat repl with
  | case1 => rw [repAllAux]
  | case2 c t hp ih =>
    rw [containsSeq_cons, hp.1] at hocc
    simp at hocc
  | case3 c t hp ih =>
    rw [repAllAux, if_neg hp]
    rw [containsSeq_cons] at hocc
    simp only [Bool.or_eq_false_iff] at hocc
    rw [ih hocc.2]

theorem prefix_length_le {pat : List Char} {c : Char} {t : List Char}
    (h : pat.isPrefixOf (c :: t) = true) : pat.length ≤ t.length + 1 := by
  have := List.IsPrefix.length_le (List.isPrefixOf_iff_prefix.mp h)
  simpa using this

theorem repAllAux_length_ge (pat repl s : List Char)
    (h : pat.length ≤ repl.length) :
    s.length ≤ (repAllAux pat repl s).length := by
  induction s using repAllAux.induct pat repl with
  | case1 => simp [repAllAux]
  | case2 c t hp ih =>
    rw [repAllAux, if_pos hp]
    have hpl := prefix_length_le hp.1
    have hpos : 0 < pat.length := List.length_pos.mpr hp.2
    simp only [List.length_append, List.length_cons, List.length_drop] at ih ⊢
    omega
  | case3 c t hp ih =>
    rw [repAllAux, if_neg hp]
    simp only [List.length_cons]
    omega

theorem repAllAux_length_le (pat repl s : List Char)
    (h : repl.length ≤ pat.length) :
    (repAllAux pat repl s).length ≤ s.length := by
  induction s using repAllAux.induct pat repl with
  | case1 => simp [repAllAux]
  | case2 c t hp ih =>
    rw [repAllAux, if_pos hp]
    have hpl := prefix_length_le hp.1
    have hpos : 0 < pat.length := List.length_pos.mpr hp.2
    simp only [List.length_append, List.length_cons, List.length_drop] at ih ⊢
    omega
  | case3 c t hp ih =>
    rw [repAllAux, if_neg hp]
    simp only [List.length_cons]
    omega

theorem repAllAux_length_gt (pat repl s : List Char) (hne : pat ≠ [])
    (h : pat.length < repl.length) (hocc : containsSeq pat s = true) :
    s.length < (repAllAux pat repl s).length := by
  induction s using repAllAux.induct pat repl with
  | case1 => rw [containsSeq_nil_false hne] at hocc; cases hocc
  | case2 c t hp ih =>
    rw [repAllAux, if_pos hp]
    have hge := repAllAux_length_ge pat repl (List.drop (pat.length - 1) t)
      (le_of_lt h)
    have hpl := prefix_length_le hp.1
    have hpos : 0 < pat.length := List.length_pos.mpr hp.2
    simp only [List.length_append, List.length_cons, List.length_drop]
      at hge ⊢
    omega
  | case3 c t hp ih =>
    rw [repAllAux, if_neg hp]
    cases hpre : pat.isPrefixOf (c :: t) with
    | true => exact absurd ⟨hpre, hne⟩ hp
    | false =>
      rw [containsSeq_cons, hpre] at hocc
      simp only [Bool.false_or] at hocc
      have := ih hocc
      simp only [List.length_cons]
      omega

theorem repAllAux_length_lt (pat repl s : List Char) (hne : pat ≠ [])
    (h : repl.length < pat.length) (hocc : containsSeq pat s = true) :
    (repAllAux pat repl s).length < s.length := by
  induction s using repAllAux.induct pat repl with
  | case1 => rw [containsSeq_nil_false hne] at hocc; cases hocc
  | case2 c t hp ih =>
    rw [repAllAux, if_pos hp]
    have hle := repAllAux_length_le pat repl (List.drop (pat.length - 1) t)
      (le_of_lt h)
    have hpl := prefix_length_le hp.1
    have hpos : 0 < pat.length := List.length_pos.mpr hp.2
    simp only [List.length_append, List.length_cons, List.length_drop]
      at hle ⊢
    omega
  | case3 c t hp ih =>
    rw [repAllAux, if_neg hp]
    cases hpre : pat.isPrefixOf (c :: t) with
    | true => exact absurd ⟨hpre, hne⟩ hp
    | false =>
      rw [containsSeq_cons, hpre] at hocc
      simp only [Bool.false_or] at hocc
      have := ih hocc
      simp only [List.length_cons]
      omega

/-- If the pattern occurs and the replacement differs from the pattern, the
replacement changes the list. -/
theorem repAllAux_ne (pat repl s : List Char) (hne : pat ≠ [])
    (hocc : containsSeq pat s = true) (hrne : repl ≠ pat) :
    repAllAux pat repl s ≠ s := by
  rcases Nat.lt_trichotomy pat.length repl.length with hl | hl | hl
  · intro heq
    have := repAllAux_length_gt pat repl s hne hl hocc
    rw [heq] at this
    omega
  · revert hocc
    induction s using repAllAux.induct pat repl with
    | case1 =>
      intro hocc
      rw [containsSeq_nil_false hne] at hocc
      cases hocc
    | case2 c t hp ih =>
      intro hocc
      rw [repAllAux, if_pos hp]
      obtain ⟨u, hu⟩ := List.isPrefixOf_iff_prefix.mp hp.1
      have hdrop : List.drop (pat.length - 1) t = u := by
        cases pat with
        | nil => exact absurd rfl hne
        | cons p0 ps =>
          rw [List.cons_append] at hu
          injection hu with h1 h2
          rw [← h2]
          simp only [List.length_cons, Nat.add_sub_cancel]
          exact List.drop_left ps u
      rw [hdrop]
      intro heq
      rw [← hu] at heq
      obtain ⟨h1, _⟩ := List.append_inj heq hl.symm
      exact hrne h1
    | case3 c t hp ih =>
      intro hocc
      rw [repAllAux, if_neg hp]
      cases hpre : pat.isPrefixOf (c :: t) with
      | true => exact absurd ⟨hpre, hne⟩ hp
      | false =>
        rw [containsSeq_cons, hpre] at hocc
        simp only [Bool.false_or] at hocc
        intro heq
        injection heq with _ h2
        exact ih hocc h2
  · intro heq
    have := repAllAux_length_lt pat repl s hne hl hocc
    rw [heq] at this
    omega

theorem replaceAllStr_id_of_not_contains (s pat repl : String)
    (hocc : strContainsSub s pat = false) : replaceAllStr s pat repl = s := by
  have h := repAllAux_id_of_not_contains pat.data repl.data s.data hocc
  show (⟨repAllAux pat.data repl.data s.data⟩ : String) = s
  rw [h]

theorem replaceAllStr_ne_of_contains (s ip : String)
    (hocc : strContainsSub s "127.0.0.1" = true)
    (hip : ip ≠ "127.0.0.1") :
    replaceAllStr s "127.0.0.1" ip ≠ s := by
  intro h
  have hd : repAllAux ("127.0.0.1").data ip.data s.data = s.data :=
    congrArg String.data h
  refine repAllAux_ne _ _ _ (by decide) hocc ?_ hd
  intro hh
  apply hip
  cases ip with
  | mk l =>
    cases hh
    rfl


theorem drop_of_prefix {pat u : List Char} {c : Char} {t : List Char}
    (hne : pat ≠ []) (hu : pat ++ u = c :: t) :
    List.drop (pat.length - 1) t = u := by
  cases pat with
  | nil => exact absurd rfl hne
  | cons p0 ps =>
    rw [List.cons_append] at hu
    injection hu with h1 h2
    rw [← h2]
    simp only [List.length_cons, Nat.add_sub_cancel]
    exact List.drop_left ps u

/-- Replacing a pattern by itself changes nothing. -/
theorem repAllAux_self (pat s : List Char) : repAllAux pat pat s = s := by
  induction s using repAllAux.induct pat pat with
  | case1 => rw [repAllAux]
  | case2 c t hp ih =>
    rw [repAllAux, if_pos hp]
    obtain ⟨u, hu⟩ := List.isPrefixOf_iff_prefix.mp hp.1
    have hdrop := drop_of_prefix hp.2 hu
    rw [hdrop] at ih ⊢
    rw [ih]
    exact hu
  | case3 c t hp ih =>
    rw [repAllAux, if_neg hp, ih]

theorem replaceAllStr_self (s pat : String) :
    replaceAllStr s pat pat = s := by
  have h := repAllAux_self pat.data s.data
  show (⟨repAllAux pat.data pat.data s.data⟩ : String) = s
  rw [h]

/-! ## Claims C5 and C10: the kubeconfig patcher -/

/-- The navigation `clusters[0].cluster.server` as a partial lookup. -/
def kubeServerURL (m : YMap) : Option String :=
  match lookupY m "clusters" with
  | some (.list (c0 :: _)) =>
    match c0 with
    | .map fc =>
      match lookupY fc "cluster" with
      | some (.map cd) =>
        match lookupY cd "server" with
        | some (.str s) => some s
        | _ => none
      | _ => none
    | _ => none
  | _ => none

theorem lookupY_updateY (m : YMap) (k : String) (v w : YVal)
    (h : lookupY m k = some w) : lookupY (updateY m k v) k = some v := by
  induction m with
  | nil => simp [lookupY] at h
  | cons p rest ih =>
    obtain ⟨k', v'⟩ := p
    by_cases hk : k' = k
    · subst hk
      unfold updateY
      rw [List.map_cons]
      show lookupY ((if (k', v').1 = k' then (k', v) else (k', v')) :: _) k'
        = some v
      rw [if_pos rfl]
      show (if k' = k' then some v else _) = some v
      rw [if_pos rfl]
    · rw [lookupY, if_neg hk] at h
      simp only [updateY, List.map_cons, if_neg hk]
      rw [lookupY, if_neg hk]
      exact ih h

/-- C5 (amended): on a document whose first cluster entry's server URL is
`s`, if `s` contains the loopback host `127.0.0.1` and the given real
address is not itself `127.0.0.1`, the patcher reports `wasReplaced = true`
and the patched document's server URL is `s` with every loopback occurrence
replaced by the real address; if `s` contains no loopback host, the
document is returned unchanged with `wasReplaced = false`. -/
theorem C5_patch_server_address (m fc cd : YMap) (rest : List YVal)
    (s ip : String)
    (h1 : lookupY m "clusters" = some (.list (.map fc :: rest)))
    (h2 : lookupY fc "cluster" = some (.map cd))
    (h3 : lookupY cd "server" = some (.str s)) :
    (strContainsSub s "127.0.0.1" = true → ip ≠ "127.0.0.1" →
      (replaceKubeconfigServer m ip).2 = true ∧
      kubeServerURL (replaceKubeconfigServer m ip).1 =
        some (replaceAllStr s "127.0.0.1" ip)) ∧
    (strContainsSub s "127.0.0.1" = false →
      replaceKubeconfigServer m ip = (m, false)) := by
  constructor
  · intro hocc hip
    have hne := replaceAllStr_ne_of_contains s ip hocc hip
    have hres : replaceKubeconfigServer m ip =
        (updateY m "clusters"
          (.list (.map (updateY fc "cluster"
            (.map (updateY cd "server"
              (.str (replaceAllStr s "127.0.0.1" ip))))) :: rest)), true) := by
      unfold replaceKubeconfigServer
      simp only [h1, h2, h3]
      rw [if_pos hne]
    have ha := lookupY_updateY m "clusters"
      (YVal.list (YVal.map (updateY fc "cluster"
        (YVal.map (updateY cd "server"
          (YVal.str (replaceAllStr s "127.0.0.1" ip))))) :: rest)) _ h1
    have hb := lookupY_updateY fc "cluster"
      (YVal.map (updateY cd "server"
        (YVal.str (replaceAllStr s "127.0.0.1" ip)))) _ h2
    have hcc := lookupY_updateY cd "server"
      (YVal.str (replaceAllStr s "127.0.0.1" ip)) _ h3
    refine ⟨by rw [hres], ?_⟩
    rw [hres]
    simp only [kubeServerURL, ha, hb, hcc]
  · intro hocc
    have hid := replaceAllStr_id_of_not_contains s "127.0.0.1" ip hocc
    unfold replaceKubeconfigServer
    simp only [h1, h2, h3]
    simp [hid]

def cdW : YMap := [("server", .str "https://127.0.0.1:6443")]

def fcW : YMap := [("cluster", .map cdW), ("name", .str "default")]

def mW : YMap :=
  [("apiVersion", .str "v1"),
   ("clusters", .list [.map fcW]),
   ("kind", .str "Config")]

/-- C5 witness at a concrete kubeconfig document. -/
theorem C5_patch_server_address_witness :
    (strContainsSub "https://127.0.0.1:6443" "127.0.0.1" = true →
      "192.168.1.11" ≠ "127.0.0.1" →
      (replaceKubeconfigServer mW "192.168.1.11").2 = true ∧
      kubeServerURL (replaceKubeconfigServer mW "192.168.1.11").1 =
        some (replaceAllStr "https://127.0.0.1:6443" "127.0.0.1"
          "192.168.1.11")) ∧
    (strContainsSub "https://127.0.0.1:6443" "127.0.0.1" = false →
      replaceKubeconfigServer mW "192.168.1.11" = (mW, false)) :=
  C5_patch_server_address mW fcW cdW [] "https://127.0.0.1:6443"
    "192.168.1.11" rfl rfl rfl

/-- C5 counterexample to the claim as stated: with the real address equal to
the loopback literal itself, the server URL contains the loopback host yet
`wasReplaced` is `false` (the textual replacement changes nothing). -/
theorem C5_counterexample :
    strContainsSub "https://127.0.0.1:6443" "127.0.0.1" = true ∧
    (replaceKubeconfigServer mW "127.0.0.1").2 = false := by
  constructor
  · decide
  · have hself := replaceAllStr_self "https://127.0.0.1:6443" "127.0.0.1"
    unfold replaceKubeconfigServer
    have h1 : lookupY mW "clusters" = some (.list (.map fcW :: [])) := rfl
    have h2 : lookupY fcW "cluster" = some (.map cdW) := rfl
    have h3 : lookupY cdW "server" =
        some (.str "https://127.0.0.1:6443") := rfl
    simp only [h1, h2, h3]
    simp [hself]

/-- C10: whenever the `clusters[0].cluster.server` navigation fails — no
`clusters` key, a non-list value, an empty list, a non-mapping first entry,
a missing or non-mapping `cluster` field, a missing or non-string `server`
field — the patcher returns the document unchanged with
`wasReplaced = false` and no error; an error arises only from the YAML
unmarshal step itself, and is then propagated unchanged. -/
theorem C10_malformed_no_error (m : YMap) (ip : String) (env : Env)
    (dataOk dataBad : String) (e : Err)
    (hnav : kubeServerURL m = none) :
    replaceKubeconfigServer m ip = (m, false) ∧
    (env.parseYaml dataOk = .ok m →
      replaceKubeconfigServerBytes env dataOk ip =
        .ok (env.marshalYaml m, false)) ∧
    (env.parseYaml dataBad = .error e →
      replaceKubeconfigServerBytes env dataBad ip = .error e) := by
  have hmain : replaceKubeconfigServer m ip = (m, false) := by
    unfold replaceKubeconfigServer
    unfold kubeServerURL at hnav
    rcases hc : lookupY m "clusters" with _ | (_ | _ | _ | _ | items | _) <;>
      try simp [hc]
    cases items with
    | nil => simp [hc]
    | cons c0 rest2 =>
      rcases c0 with _ | _ | _ | _ | _ | fc <;> try simp [hc]
      rcases hcl : lookupY fc "cluster" with _ | (_ | _ | _ | _ | _ | cd) <;>
        try simp [hc, hcl]
      rcases hsv : lookupY cd "server" with _ | (_ | _ | _ | s | _ | _) <;>
        try simp [hc, hcl, hsv]
      simp [hc, hcl, hsv] at hnav
  refine ⟨hmain, ?_, ?_⟩
  · intro hp
    simp [replaceKubeconfigServerBytes, hp, hmain]
  · intro hp
    simp [replaceKubeconfigServerBytes, hp]

def mBad : YMap := [("clusters", .str "oops")]

/-- A parsing oracle failing on one specific document. -/
def envKW : Env :=
  ⟨fun _ _ _ _ => .ok (), fun _ _ => ("", "", none), fun _ _ _ => .ok (),
   fun _ _ _ => .ok (), fun _ _ => .ok "y", fun s _ => .ok s,
   fun d => if d = "bad" then .error (.msg "yaml") else .ok mBad,
   fun _ => "serialized", fun _ _ => .ok ()⟩

/-- C10 witness: a document with a non-list `clusters` value is returned
unchanged without error; a failing unmarshal propagates its error. -/
theorem C10_malformed_no_error_witness :
    replaceKubeconfigServer mBad "1.2.3.4" = (mBad, false) ∧
    (envKW.parseYaml "good" = .ok mBad →
      replaceKubeconfigServerBytes envKW "good" "1.2.3.4" =
        .ok (envKW.marshalYaml mBad, false)) ∧
    (envKW.parseYaml "bad" = .error (.msg "yaml") →
      replaceKubeconfigServerBytes envKW "bad" "1.2.3.4" =
        .error (.msg "yaml")) :=
  C10_malformed_no_error mBad "1.2.3.4" envKW "good" "bad" (.msg "yaml") rfl

/-! ## IP addresses, CIDR parsing and the configuration validator
(internal/config/config.go; `net.ParseCIDR`, `IP.Mask`, `IP.Equal`,
`IPNet.Contains` and `CIDRMask` are modelled from the Go standard library,
with IPs as byte lists of length 4 or 16). -/

/-- Go `net.dtoi`: leading decimal with the `0xFFFFFF` overflow cutoff. -/
def dtoiAux (n i : Nat) : List Char → Nat × Nat × Bool
  | [] => if i = 0 then (0, 0, false) else (n, i, true)
  | c :: t =>
    if c.isDigit then
      let n2 := n * 10 + (c.toNat - 48)
      if n2 ≥ 16777215 then (16777215, i + 1, false)
      else dtoiAux n2 (i + 1) t
    else if i = 0 then (0, 0, false) else (n, i, true)

def dtoi (s : List Char) : Nat × Nat × Bool := dtoiAux 0 0 s

/-- One dotted-decimal IPv4 field: 1-3 digits, no leading zero, ≤ 255. -/
def parseV4Field (f : List Char) : Option Nat :=
  if f = [] then none
  else if f.length > 3 then none
  else if f.all Char.isDigit = false then none
  else if f.length > 1 ∧ f.head? = some '0' then none
  else
    let v := f.foldl (fun a c => a * 10 + (c.toNat - 48)) 0
    if v ≤ 255 then some v else none

def splitOnCharN (c : Char) : List Char → List (List Char)
  | [] => [[]]
  | x :: xs =>
    if x = c then [] :: splitOnCharN c xs
    else match splitOnCharN c xs with
      | [] => [[x]]
      | p :: ps => (x :: p) :: ps

/-- Dotted-quad IPv4 parsing: exactly four valid fields. -/
def parseIPv4 (s : List Char) : Option (List Nat) :=
  match (splitOnCharN '.' s).mapM parseV4Field with
  | some fields => if fields.length = 4 then some fields else none
  | none => none

def isHexDigit (c : Char) : Bool :=
  c.isDigit || ('a' ≤ c ∧ c ≤ 'f') || ('A' ≤ c ∧ c ≤ 'F')

def hexVal (c : Char) : Nat :=
  if c.isDigit then c.toNat - 48
  else if 'a' ≤ c ∧ c ≤ 'f' then c.toNat - 87
  else c.toNat - 55

/-- One 16-bit IPv6 group: 1-4 hex digits. -/
def parseV6Group (g : List Char) : Option Nat :=
  if g = [] then none
  else if g.length > 4 then none
  else if g.all isHexDigit then
    some (g.foldl (fun a c => a * 16 + hexVal c) 0)
  else none

/-- Split at the first `::`, if any. -/
def findEllipsis : List Char → Option (List Char × List Char)
  | [] => none
  | [_] => none
  | ':' :: ':' :: rest => some ([], rest)
  | c :: rest =>
    match findEllipsis rest with
    | some (l, r) => some (c :: l, r)
    | none => none

/-- Parse a colon-separated group list whose final group may be an embedded
dotted-quad IPv4 tail (two 16-bit groups); yields 16-bit group values. -/
def parseSide : List (List Char) → Option (List Nat)
  | [] => some []
  | [g] =>
    if g.contains '.' then
      match parseIPv4 g with
      | some [a, b, c, d] => some [a * 256 + b, c * 256 + d]
      | _ => none
    else
      match parseV6Group g with
      | some v => some [v]
      | none => none
  | g :: gs =>
    if g.contains '.' then none
    else
      match parseV6Group g, parseSide gs with
      | some v, some vs => some (v :: vs)
      | _, _ => none

/-- 16-bit group values to bytes. -/
def bytesOfGroups (vs : List Nat) : List Nat :=
  vs.flatMap (fun v => [v / 256, v % 256])

/-- RFC-4291 IPv6 textual form: eight groups, an optional single `::`
standing for at least one zero group, an optional embedded IPv4 tail. -/
def parseIPv6 (s : List Char) : Option (List Nat) :=
  match findEllipsis s with
  | some (l, r) =>
    if (findEllipsis r).isSome then none
    else
      match
        (if l = [] then some [] else (splitOnCharN ':' l).mapM parseV6Group),
        (if r = [] then some [] else parseSide (splitOnCharN ':' r)) with
      | some lv, some rv =>
        if lv.length + rv.length ≤ 7 then
          some (bytesOfGroups
            (lv ++ List.replicate (8 - lv.length - rv.length) 0 ++ rv))
        else none
      | _, _ => none
  | none =>
    match parseSide (splitOnCharN ':' s) with
    | some vs => if vs.length = 8 then some (bytesOfGroups vs) else none
    | none => none

/-- The first of `.` and `:` occurring in the string decides the family, as
in `net.ParseIP`. -/
def firstSep : List Char → Option Char
  | [] => none
  | c :: t => if c = '.' then some '.' else if c = ':' then some ':' else
      firstSep t

/-- `net.ParseIP` (modulo byte-slice length normalization, which only the
CIDR path below depends on). -/
def parseIP (s : String) : Option (List Nat) :=
  match firstSep s.data with
  | some '.' => parseIPv4 s.data
  | some ':' => parseIPv6 s.data
  | _ => none

/-- `net.CIDRMask`: `ones` leading one-bits over `len` bytes. -/
def cidrMaskBytes : Nat → Nat → List Nat
  | _, 0 => []
  | ones, Nat.succ len =>
    if ones ≥ 8 then 255 :: cidrMaskBytes (ones - 8) len
    else (256 - 2 ^ (8 - ones)) :: cidrMaskBytes 0 len

def v4InV6Prefix : List Nat := [0, 0, 0, 0, 0, 0, 0, 0, 0, 0, 255, 255]

/-- `IP.Mask`: length adjustments (trim a 16-byte all-ones-prefixed mask
against a 4-byte address, or a v4-mapped 16-byte address against a 4-byte
mask), then bytewise AND; the empty list models Go's nil result on length
mismatch.  The two adjustment conditions are mutually exclusive, so they
are written as one if-chain. -/
def maskIP (ip m : List Nat) : List Nat :=
  if m.length = 16 ∧ ip.length = 4 ∧ (m.take 12).all (fun x => x == 255) then
    if ip.length = (m.drop 12).length then
      List.zipWith (fun a b => a &&& b) ip (m.drop 12)
    else []
  else if m.length = 4 ∧ ip.length = 16 ∧ ip.take 12 = v4InV6Prefix then
    if (ip.drop 12).length = m.length then
      List.zipWith (fun a b => a &&& b) (ip.drop 12) m
    else []
  else if ip.length = m.length then
    List.zipWith (fun a b => a &&& b) ip m
  else []

def splitAtSlash : List Char → Option (List Char × List Char)
  | [] => none
  | c :: t =>
    if c = '/' then some ([], t)
    else match splitAtSlash t with
      | some (a, b) => some (c :: a, b)
      | none => none

structure IPNet where
  ip : List Nat
  mask : List Nat
deriving DecidableEq

/-- `net.ParseCIDR`: split at the first `/`, parse the address (IPv4 or,
failing the separator test, IPv6), parse the prefix length with `dtoi`,
and return the masked network with its mask. -/
def parseCIDR (s : String) : Option IPNet :=
  match splitAtSlash s.data with
  | none => none
  | some (addr, maskStr) =>
    match
      (match firstSep addr with
       | some '.' => parseIPv4 addr
       | some ':' => parseIPv6 addr
       | _ => none) with
    | none => none
    | some ip =>
      if (dtoi maskStr).2.2 = false ∨ (dtoi maskStr).2.1 ≠ maskStr.length ∨
          (dtoi maskStr).1 > 8 * ip.length then
        none
      else
        some ⟨maskIP ip (cidrMaskBytes (dtoi maskStr).1 ip.length),
          cidrMaskBytes (dtoi maskStr).1 ip.length⟩

/-- `IP.To4`. -/
def ipTo4 (ip : List Nat) : Option (List Nat) :=
  if ip.length = 4 then some ip
  else if ip.length = 16 ∧ ip.take 12 = v4InV6Prefix then some (ip.drop 12)
  else none

/-- `IP.Equal`, including the 4-byte/16-byte mixed comparisons. -/
def ipEqual (a b : List Nat) : Bool :=
  if a.length = b.length then decide (a = b)
  else if a.length = 4 ∧ b.length = 16 then
    decide (b.take 12 = v4InV6Prefix ∧ a = b.drop 12)
  else if a.length = 16 ∧ b.length = 4 then
    decide (a.take 12 = v4InV6Prefix ∧ b = a.drop 12)
  else false

/-- `bytesEqual` (config.go). -/
def bytesEqual : List Nat → List Nat → Bool
  | [], [] => true
  | x :: xs, y :: ys => decide (x = y) && bytesEqual xs ys
  | _, _ => false

/-- `networkNumberAndMask`. -/
def networkNumberAndMask (n : IPNet) : Option (List Nat × List Nat) :=
  match
    (match ipTo4 n.ip with
     | some x => some x
     | none => if n.ip.length = 16 then some n.ip else none) with
  | none => none
  | some nn =>
    if n.mask.length = 4 then
      if nn.length = 4 then some (nn, n.mask) else none
    else if n.mask.length = 16 then
      if nn.length = 4 then some (nn, n.mask.drop 12) else some (nn, n.mask)
    else none

/-- The byte loop of `IPNet.Contains`. -/
def containsBytes : List Nat → List Nat → List Nat → Bool
  | [], [], [] => true
  | nn :: nns, m :: ms, x :: xs =>
    decide (nn &&& m = x &&& m) && containsBytes nns ms xs
  | _, _, _ => false

/-- `IPNet.Contains`. -/
def ipNetContains (n : IPNet) (x : List Nat) : Bool :=
  match networkNumberAndMask n with
  | none => false
  | some (nn, m) =>
    let x2 := match ipTo4 x with | some y => y | none => x
    if x2.length = nn.length then containsBytes nn m x2 else false

/-- `cidrsEqual` (config.go). -/
def cidrsEqual (a b : IPNet) : Bool :=
  ipEqual a.ip b.ip && bytesEqual a.mask b.mask

/-- `cidrsOverlap` (config.go): either network contains the other's network
address. -/
def cidrsOverlap (a b : IPNet) : Bool :=
  ipNetContains a b.ip || ipNetContains b a.ip

inductive ValErr where
  | invalidCIDR (field value : String)
  | identicalCidrs (value : String)
  | overlapCidrs (clusterValue serviceValue : String)
  | nodeIPErr (kind name m : String)
deriving DecidableEq

/-- Which validation errors concern the CIDR pair. -/
def ValErr.isCidrError : ValErr → Bool
  | .nodeIPErr _ _ _ => false
  | _ => true

/-- `validateNodeIP` (config.go). -/
def validateNodeIP (node : Node) : Except String Unit :=
  if node.ip = "" then .error "ip address is empty"
  else match parseIP node.ip with
    | none => .error ("invalid ip address: " ++ node.ip)
    | some _ => .ok ()

/-- The per-list node loop of `Validate`. -/
def validateNodes (kind : String) : List Node → Except ValErr Unit
  | [] => .ok ()
  | n :: rest =>
    match validateNodeIP n with
    | .error m => .error (.nodeIPErr kind n.nodeName m)
    | .ok _ => validateNodes kind rest

/-- `Validate` (config.go lines 90-124). -/
def Validate (c : Config) : Except ValErr Unit :=
  match parseCIDR c.cluster.clusterCidr with
  | none => .error (.invalidCIDR "cluster-cidr" c.cluster.clusterCidr)
  | some clusterNet =>
    match parseCIDR c.cluster.serviceCidr with
    | none => .error (.invalidCIDR "service-cidr" c.cluster.serviceCidr)
    | some serviceNet =>
      if cidrsEqual clusterNet serviceNet then
        .error (.identicalCidrs c.cluster.clusterCidr)
      else if cidrsOverlap clusterNet serviceNet then
        .error (.overlapCidrs c.cluster.clusterCidr c.cluster.serviceCidr)
      else
        match validateNodes "server" c.servers with
        | .error e => .error e
        | .ok _ => validateNodes "agent" c.agents

/-! ## Lemmas about masks, masking and containment -/

theorem land_idem (a : Nat) : a &&& a = a := by
  apply Nat.eq_of_testBit_eq
  intro i
  simp [Nat.testBit_land]

theorem topOnes_land {a b : Nat} (ha : a ≤ 8) (hb : b ≤ 8) (hab : a ≤ b) :
    (256 - 2 ^ (8 - a)) &&& (256 - 2 ^ (8 - b)) = 256 - 2 ^ (8 - a) := by
  revert hab
  interval_cases a <;> interval_cases b <;> decide

theorem cidrMaskBytes_length (n L : Nat) : (cidrMaskBytes n L).length = L := by
  induction L generalizing n with
  | zero => rfl
  | succ L ih =>
    unfold cidrMaskBytes
    split <;> simp [ih]

/-- Pointwise AND of a shorter-prefix mask with a longer-prefix mask gives
the shorter-prefix mask back. -/
theorem cidrMask_land (n1 n2 L : Nat) (h : n1 ≤ n2) :
    List.zipWith (fun a b => a &&& b)
      (cidrMaskBytes n1 L) (cidrMaskBytes n2 L) = cidrMaskBytes n1 L := by
  induction L generalizing n1 n2 with
  | zero => rfl
  | succ L ih =>
    by_cases h1 : n1 ≥ 8
    · have h2 : n2 ≥ 8 := le_trans h1 h
      simp only [cidrMaskBytes, if_pos h1, if_pos h2,
        List.zipWith_cons_cons]
      rw [ih (n1 - 8) (n2 - 8) (by omega)]
      rw [show (255 : ℕ) &&& 255 = 255 from by decide]
    · by_cases h2 : n2 ≥ 8
      · simp only [cidrMaskBytes, if_neg h1, if_pos h2,
          List.zipWith_cons_cons]
        rw [ih 0 (n2 - 8) (by omega)]
        have h255 : (255 : ℕ) = 256 - 2 ^ (8 - 8) := by norm_num
        rw [h255, topOnes_land (by omega) (by omega) (by omega)]
      · simp only [cidrMaskBytes, if_neg h1, if_neg h2,
          List.zipWith_cons_cons]
        rw [ih 0 0 le_rfl, topOnes_land (by omega) (by omega) h]

/-- Masking is idempotent, bytewise. -/
theorem zipWith_land_canonical (raw m : List Nat) :
    List.zipWith (fun a b => a &&& b)
      (List.zipWith (fun a b => a &&& b) raw m) m =
      List.zipWith (fun a b => a &&& b) raw m := by
  induction raw generalizing m with
  | nil => rfl
  | cons a ra ih =>
    cases m with
    | nil => rfl
    | cons b mb =>
      simp only [List.zipWith_cons_cons]
      rw [ih]
      rw [Nat.land_assoc, land_idem]

theorem maskIP_of_len_eq {ip m : List Nat} (hlen : ip.length = m.length) :
    maskIP ip m = List.zipWith (fun a b => a &&& b) ip m := by
  unfold maskIP
  have hc1 : ¬(m.length = 16 ∧ ip.length = 4 ∧
      ((m.take 12).all (fun x => x == 255)) = true) := by
    rintro ⟨hm, hip, _⟩
    omega
  rw [if_neg hc1]
  have hc2 : ¬(m.length = 4 ∧ ip.length = 16 ∧
      ip.take 12 = v4InV6Prefix) := by
    rintro ⟨hm, hip, _⟩
    omega
  rw [if_neg hc2, if_pos hlen]

theorem bytesOfGroups_length (vs : List Nat) :
    (bytesOfGroups vs).length = 2 * vs.length := by
  induction vs with
  | nil => rfl
  | cons v vs ih =>
    simp [bytesOfGroups] at ih ⊢
    omega

theorem parseIPv4_length {l : List Char} {ip : List Nat}
    (h : parseIPv4 l = some ip) : ip.length = 4 := by
  unfold parseIPv4 at h
  split at h
  · split at h
    · injection h with h'
      rw [← h']
      assumption
    · exact absurd h (by simp)
  · exact absurd h (by simp)

theorem parseIPv6_length {l : List Char} {ip : List Nat}
    (h : parseIPv6 l = some ip) : ip.length = 16 := by
  unfold parseIPv6 at h
  split at h
  · split at h
    · exact absurd h (by simp)
    · split at h
      · split at h
        · injection h with h'
          rw [← h', bytesOfGroups_length]
          simp only [List.length_append, List.length_replicate]
          omega
        · exact absurd h (by simp)
      · exact absurd h (by simp)
  · split at h
    · split at h
      · injection h with h'
        rw [← h', bytesOfGroups_length]
        omega
      · exact absurd h (by simp)
    · exact absurd h (by simp)

/-- What `parseCIDR` guarantees about its output: a 4- or 16-byte network
address, a mask of the same length produced by `CIDRMask`, and canonicity
(the stored address is already masked). -/
theorem parseCIDR_shape {s : String} {r : IPNet}
    (h : parseCIDR s = some r) :
    (r.ip.length = 4 ∨ r.ip.length = 16) ∧
    r.mask.length = r.ip.length ∧
    (∃ n, r.mask = cidrMaskBytes n r.ip.length) ∧
    List.zipWith (fun a b => a &&& b) r.ip r.mask = r.ip := by
  unfold parseCIDR at h
  split at h
  · exact absurd h (by simp)
  · rename_i addr maskStr hsp
    split at h
    · exact absurd h (by simp)
    · rename_i ip heq
      split at h
      · exact absurd h (by simp)
      · injection h with h'
        have hiplen : ip.length = 4 ∨ ip.length = 16 := by
          split at heq
          · exact Or.inl (parseIPv4_length heq)
          · exact Or.inr (parseIPv6_length heq)
          · exact absurd heq (by simp)
        have hmlen : (cidrMaskBytes (dtoi maskStr).1 ip.length).length =
            ip.length := cidrMaskBytes_length _ _
        have hmask := @maskIP_of_len_eq ip
          (cidrMaskBytes (dtoi maskStr).1 ip.length) hmlen.symm
        have hriplen : (maskIP ip
            (cidrMaskBytes (dtoi maskStr).1 ip.length)).length = ip.length := by
          rw [hmask, List.length_zipWith, hmlen]
          omega
        rw [← h']
        refine ⟨?_, ?_, ?_, ?_⟩
        · show (maskIP ip _).length = 4 ∨ (maskIP ip _).length = 16
          rw [hriplen]
          exact hiplen
        · show (cidrMaskBytes _ _).length = (maskIP ip _).length
          rw [hriplen, hmlen]
        · exact ⟨(dtoi maskStr).1, by rw [hriplen]⟩
        · show List.zipWith _ (maskIP ip _) (cidrMaskBytes _ _) = maskIP ip _
          rw [hmask]
          exact zipWith_land_canonical ip _

theorem nnm_four {r : IPNet} (h4 : r.ip.length = 4)
    (hm4 : r.mask.length = 4) :
    networkNumberAndMask r = some (r.ip, r.mask) := by
  unfold networkNumberAndMask ipTo4
  simp [h4, hm4]

/-- The Go `Contains` candidate normalization. -/
def normIP (x : List Nat) : List Nat :=
  match ipTo4 x with
  | some y => y
  | none => x

theorem ipNetContains_four {r : IPNet} (h4 : r.ip.length = 4)
    (hm4 : r.mask.length = 4) (x : List Nat) :
    ipNetContains r x =
      (if (normIP x).length = 4 then
        containsBytes r.ip r.mask (normIP x) else false) := by
  simp only [ipNetContains, nnm_four h4 hm4, h4, normIP]

theorem containsBytes_self (A M : List Nat) (h : A.length = M.length) :
    containsBytes A M A = true := by
  induction A generalizing M with
  | nil =>
    cases M with
    | nil => rfl
    | cons m ms => simp at h
  | cons a A ih =>
    cases M with
    | nil => simp at h
    | cons m M =>
      simp only [containsBytes, Bool.and_eq_true, decide_eq_true_eq]
      exact ⟨trivial, ih M (by simpa using h)⟩

/-- The kernel of the overlap argument: if the network `A/M` and the
network `B/N` share a member `x`, `M` is the coarser mask (`M ⊓ N = M`) and
`B` is canonical for `N`, then `A/M` contains `B` itself. -/
theorem containsBytes_trans (A M B N x : List Nat)
    (hMN : List.zipWith (fun a b => a &&& b) M N = M)
    (hB : List.zipWith (fun a b => a &&& b) B N = B)
    (hAx : containsBytes A M x = true)
    (hBx : containsBytes B N x = true) :
    containsBytes A M B = true := by
  induction A generalizing M B N x with
  | nil =>
    cases M with
    | cons m ms => simp [containsBytes] at hAx
    | nil =>
      cases x with
      | cons x0 xs => simp [containsBytes] at hAx
      | nil =>
        cases B with
        | nil => rfl
        | cons b bs =>
          cases N with
          | nil => simp [containsBytes] at hBx
          | cons n ns => simp [containsBytes] at hBx
  | cons a A ih =>
    cases M with
    | nil => simp [containsBytes] at hAx
    | cons m M =>
      cases x with
      | nil => simp [containsBytes] at hAx
      | cons x0 xs =>
        simp only [containsBytes, Bool.and_eq_true, decide_eq_true_eq] at hAx
        cases B with
        | nil =>
          cases N with
          | nil => simp [containsBytes] at hBx
          | cons n ns => simp [containsBytes] at hBx
        | cons b B =>
          cases N with
          | nil => simp [containsBytes] at hBx
          | cons n N =>
            simp only [containsBytes, Bool.and_eq_true, decide_eq_true_eq]
              at hBx ⊢
            simp only [List.zipWith_cons_cons] at hMN hB
            injection hMN with hMN1 hMN2
            injection hB with hB1 hB2
            refine ⟨?_, ih M B N xs hMN2 hB2 hAx.2 hBx.2⟩
            have hnm : n &&& m = m := by
              rw [Nat.land_comm]
              exact hMN1
            have h5 : b &&& m = x0 &&& m := by
              calc b &&& m = (b &&& n) &&& m := by rw [hB1]
                _ = (x0 &&& n) &&& m := by rw [hBx.1]
                _ = x0 &&& (n &&& m) := Nat.land_assoc x0 n m
                _ = x0 &&& m := by rw [hnm]
            rw [hAx.1, h5]

/-- Set-level disjointness of two networks, membership taken as the code's
`Contains`. -/
def netsDisjoint (a b : IPNet) : Prop :=
  ∀ x : List Nat,
    ¬(ipNetContains a x = true ∧ ipNetContains b x = true)

/-- For two 4-byte networks as produced by `parseCIDR`, the code's overlap
check (`cidrsOverlap`) is false exactly when the networks are disjoint as
sets of addresses. -/
theorem cidrsOverlap_false_iff_disjoint (r1 r2 : IPNet) (n1 n2 : Nat)
    (h1ip : r1.ip.length = 4) (h2ip : r2.ip.length = 4)
    (hm1 : r1.mask = cidrMaskBytes n1 4) (hm2 : r2.mask = cidrMaskBytes n2 4)
    (hc1 : List.zipWith (fun a b => a &&& b) r1.ip r1.mask = r1.ip)
    (hc2 : List.zipWith (fun a b => a &&& b) r2.ip r2.mask = r2.ip) :
    cidrsOverlap r1 r2 = false ↔ netsDisjoint r1 r2 := by
  have hm1len : r1.mask.length = 4 := by rw [hm1]; exact cidrMaskBytes_length _ _
  have hm2len : r2.mask.length = 4 := by rw [hm2]; exact cidrMaskBytes_length _ _
  have hself1 : ipNetContains r1 r1.ip = true := by
    rw [ipNetContains_four h1ip hm1len]
    simp only [normIP, ipTo4, if_pos h1ip, h1ip, if_true]
    exact containsBytes_self r1.ip r1.mask (by rw [h1ip, hm1len])
  have hself2 : ipNetContains r2 r2.ip = true := by
    rw [ipNetContains_four h2ip hm2len]
    simp only [normIP, ipTo4, if_pos h2ip, h2ip, if_true]
    exact containsBytes_self r2.ip r2.mask (by rw [h2ip, hm2len])
  constructor
  · intro hov x hx
    obtain ⟨hx1, hx2⟩ := hx
    rw [ipNetContains_four h1ip hm1len] at hx1
    rw [ipNetContains_four h2ip hm2len] at hx2
    by_cases hxl : (normIP x).length = 4
    · rw [if_pos hxl] at hx1 hx2
      have hovF : (ipNetContains r1 r2.ip || ipNetContains r2 r1.ip)
          = false := hov
      simp only [Bool.or_eq_false_iff] at hovF
      rcases le_total n1 n2 with hle | hle
      · have hct := containsBytes_trans r1.ip r1.mask r2.ip r2.mask
          (normIP x)
          (by rw [hm1, hm2]; exact cidrMask_land n1 n2 4 hle)
          hc2 hx1 hx2
        have : ipNetContains r1 r2.ip = true := by
          rw [ipNetContains_four h1ip hm1len]
          simp only [normIP, ipTo4, if_pos h2ip, h2ip, if_true]
          exact hct
        rw [this] at hovF
        exact absurd hovF.1 (by simp)
      · have hct := containsBytes_trans r2.ip r2.mask r1.ip r1.mask
          (normIP x)
          (by rw [hm1, hm2]; exact cidrMask_land n2 n1 4 hle)
          hc1 hx2 hx1
        have : ipNetContains r2 r1.ip = true := by
          rw [ipNetContains_four h2ip hm2len]
          simp only [normIP, ipTo4, if_pos h1ip, h1ip, if_true]
          exact hct
        rw [this] at hovF
        exact absurd hovF.2 (by simp)
    · rw [if_neg hxl] at hx1
      exact absurd hx1 (by simp)
  · intro hdis
    cases hov : cidrsOverlap r1 r2 with
    | false => rfl
    | true =>
      have hovT : (ipNetContains r1 r2.ip || ipNetContains r2 r1.ip)
          = true := hov
      rcases Bool.or_eq_true_iff.mp hovT with hA | hB
      · exact absurd ⟨hA, hself2⟩ (hdis r2.ip)
      · exact absurd ⟨hself1, hB⟩ (hdis r1.ip)

/-- The acceptance notion of C3: the validation result carries no
CIDR-related error (node-IP errors are about a different field). -/
def noCidrError (x : Except ValErr Unit) : Prop :=
  ∀ e, x = Except.error e → e.isCidrError = false

theorem validateNodes_err (kind : String) (ns : List Node) (e : ValErr)
    (h : validateNodes kind ns = .error e) : e.isCidrError = false := by
  induction ns with
  | nil => exact absurd h (by simp [validateNodes])
  | cons n rest ih =>
    unfold validateNodes at h
    cases hv : validateNodeIP n with
    | error m =>
      simp only [hv] at h
      injection h with h'
      rw [← h']
      rfl
    | ok u =>
      simp only [hv] at h
      exact ih h

def cfgW3 : Config := ⟨clusterW, ⟨"k3s", ""⟩, [], []⟩

/-- An invalid pod-range string (no prefix length). -/
def cfgA3 : Config :=
  ⟨⟨"vxlan", "10.42.0.0", "10.43.0.0/16", "tok", [], [], "", false, ""⟩,
    ⟨"k3s", ""⟩, [], []⟩

/-- A valid pod range next to an invalid service range (prefix 33 > 32). -/
def cfgB3 : Config :=
  ⟨⟨"vxlan", "10.42.0.0/16", "10.43.0.0/33", "tok", [], [], "", false, ""⟩,
    ⟨"k3s", ""⟩, [], []⟩

/-- C3: with both CIDR fields syntactically valid, `Validate` rejects the
pair when the parsed networks are identical (`identicalCidrs`) or when
either contains the other's network address (`overlapCidrs`), and reports
no CIDR error when they are distinct and the overlap check is clear; for
IPv4 ranges the code's overlap check being clear is equivalent to genuine
set-disjointness of the two networks.  A syntactically invalid string in
either field is rejected with an error naming that field, the pod-range
field being checked first. -/
theorem C3_cidr_validation (cfg cfgA cfgB : Config) (r1 r2 rB : IPNet)
    (h1 : parseCIDR cfg.cluster.clusterCidr = some r1)
    (h2 : parseCIDR cfg.cluster.serviceCidr = some r2)
    (hA : parseCIDR cfgA.cluster.clusterCidr = none)
    (hB1 : parseCIDR cfgB.cluster.clusterCidr = some rB)
    (hB2 : parseCIDR cfgB.cluster.serviceCidr = none) :
    (cidrsEqual r1 r2 = true →
      Validate cfg = .error (.identicalCidrs cfg.cluster.clusterCidr)) ∧
    (cidrsEqual r1 r2 = false → cidrsOverlap r1 r2 = true →
      Validate cfg = .error
        (.overlapCidrs cfg.cluster.clusterCidr cfg.cluster.serviceCidr)) ∧
    (cidrsEqual r1 r2 = false → cidrsOverlap r1 r2 = false →
      noCidrError (Validate cfg)) ∧
    (r1.ip.length = 4 → r2.ip.length = 4 →
      (cidrsOverlap r1 r2 = false ↔ netsDisjoint r1 r2)) ∧
    Validate cfgA =
      .error (.invalidCIDR "cluster-cidr" cfgA.cluster.clusterCidr) ∧
    Validate cfgB =
      .error (.invalidCIDR "service-cidr" cfgB.cluster.serviceCidr) := by
  refine ⟨?_, ?_, ?_, ?_, ?_, ?_⟩
  · intro ha
    simp [Validate, h1, h2, ha]
  · intro ha hb
    simp [Validate, h1, h2, ha, hb]
  · intro ha hb e he
    simp only [Validate, h1, h2, ha, hb, Bool.false_eq_true, if_false] at he
    cases hs : validateNodes "server" cfg.servers with
    | error e1 =>
      simp only [hs] at he
      injection he with he'
      rw [← he']
      exact validateNodes_err "server" cfg.servers e1 hs
    | ok u =>
      simp only [hs] at he
      exact validateNodes_err "agent" cfg.agents e he
  · intro h14 h24
    obtain ⟨_, hm1len, ⟨n1, hm1⟩, hc1⟩ := parseCIDR_shape h1
    obtain ⟨_, hm2len, ⟨n2, hm2⟩, hc2⟩ := parseCIDR_shape h2
    exact cidrsOverlap_false_iff_disjoint r1 r2 n1 n2 h14 h24
      (by rw [hm1, h14]) (by rw [hm2, h24]) hc1 hc2
  · simp [Validate, hA]
  · simp [Validate, hB1, hB2]

/-- C3 witness: the default ranges 10.42.0.0/16 and 10.43.0.0/16 validate
with no CIDR error; dropping the prefix length from the pod range is
rejected naming cluster-cidr, and a service range with prefix 33 is
rejected naming service-cidr. -/
theorem C3_cidr_validation_witness :
    noCidrError (Validate cfgW3) ∧
    Validate cfgA3 =
      .error (.invalidCIDR "cluster-cidr" "10.42.0.0") ∧
    Validate cfgB3 =
      .error (.invalidCIDR "service-cidr" "10.43.0.0/33") := by
  have h := C3_cidr_validation cfgW3 cfgA3 cfgB3
    ⟨[10, 42, 0, 0], [255, 255, 0, 0]⟩ ⟨[10, 43, 0, 0], [255, 255, 0, 0]⟩
    ⟨[10, 42, 0, 0], [255, 255, 0, 0]⟩
    (by decide) (by decide) (by decide) (by decide) (by decide)
  exact ⟨h.2.2.1 (by decide) (by decide), h.2.2.2.2.1, h.2.2.2.2.2⟩
